import Mathlib

/-!
Verification of the payment-webhook reconciliation core of the repository:
the Paddle transaction state machine (processTransactionCreated,
processTransactionReady, processTransactionPaymentFailed,
processTransactionUpdated, processTransactionCompleted and their shared
updateUserTransaction), the ledger client (transferCores, getBalance) with
its circuit breaker, and the StoreKit subscription-flags update
(updateStoreKitUserSubscription).

The source handlers are embedded as pure state transformers over an explicit
store of transaction records.  The durable database transaction wrapped
around the Completed handler is modelled by returning the untouched state on
failure.  Timestamps are natural numbers; the database-maintained updatedAt
column of a record is set to the arrival time of the delivery that wrote it.
-/

namespace Paddle

/-- Transaction status, ordinal-coded in the source (Created is 0, which is
falsy in the host language; the falsy-or in the update branch of
updateUserTransaction depends on that). -/
inductive UserTransactionStatus where
  | Created
  | Processing
  | Success
  | ErrorRecoverable
  | Error
deriving DecidableEq

/-- A row of the UserTransaction table.  The flags column is represented by
its two keys used in this subsystem (providerId and error); updatedAt is the
database-maintained write timestamp. -/
structure UserTransaction where
  id : Nat
  receiverId : String
  senderId : Option String
  productId : Option String
  status : UserTransactionStatus
  value : Nat
  fee : Nat
  flagsProviderId : Option String
  flagsError : Option String
  updatedAt : Nat
deriving DecidableEq

/-- The projection of a record onto its domain fields: everything except the
database-maintained updatedAt bookkeeping timestamp. -/
structure ObsTx where
  id : Nat
  receiverId : String
  senderId : Option String
  productId : Option String
  status : UserTransactionStatus
  value : Nat
  fee : Nat
  flagsProviderId : Option String
  flagsError : Option String
deriving DecidableEq

def obsTx (t : UserTransaction) : ObsTx :=
  ⟨t.id, t.receiverId, t.senderId, t.productId, t.status, t.value, t.fee,
   t.flagsProviderId, t.flagsError⟩

def obsStore (store : List UserTransaction) : List ObsTx :=
  store.map obsTx

/-- Modelled from the spec: getPaddleTransactionData (code missing from
src/, only its callers are present) extracts from a provider event the
provider transaction id, the custom-data user id, the cores amount of the
first line item (items[0].price.customData.cores) and the provider
last-modified timestamp; the isCoreTransaction test (also missing from
src/) is carried as a flag on the extracted data. -/
structure PaddleTransactionData where
  id : String
  userId : String
  cores : Nat
  updatedAt : Nat
  isCore : Bool
deriving DecidableEq

/-- The transaction-class webhook events dispatched by the router.  An
updated event additionally carries the provider sub-status string
(event.data.status) and a payment-failed event carries the error code of
its first payment attempt. -/
inductive PaddleEvent where
  | created (d : PaddleTransactionData)
  | ready (d : PaddleTransactionData)
  | paymentFailed (d : PaddleTransactionData) (errorCode : Option String)
  | updated (d : PaddleTransactionData) (eventStatus : String)
  | completed (d : PaddleTransactionData)
deriving DecidableEq

def PaddleEvent.data : PaddleEvent → PaddleTransactionData
  | .created d => d
  | .ready d => d
  | .paymentFailed d _ => d
  | .updated d _ => d
  | .completed d => d

/-- One invocation of the ledger transfer call (purchaseCores), recording
the idempotency key it carries (the local transaction id), the receiver and
the amount. -/
structure LedgerTransfer where
  idempotencyKey : Nat
  receiverId : String
  amount : Nat
deriving DecidableEq

/-- The world state threaded through the handlers: the transaction store,
the id generator for newly saved rows, whether the ledger service is
reachable (circuit closed), and the log of ledger transfer invocations. -/
structure PaddleState where
  store : List UserTransaction
  nextId : Nat
  ledgerUp : Bool
  transfers : List LedgerTransfer
deriving DecidableEq

/-- Outcome of a delivery as seen at the router: applied, dropped with a
warning, ignored (not a core transaction), or an exception that the router
catches and swallows after logging. -/
inductive Outcome where
  | applied
  | dropped
  | ignored
  | errored (msg : String)
deriving DecidableEq

/-- Modelled from the spec: getTransactionForProviderId (code missing from
src/) finds the unique transaction whose flags hold the given provider
transaction id. -/
def getTransactionForProviderId : List UserTransaction → String → Option UserTransaction
  | [], _ => none
  | t :: rest, pid =>
      if t.flagsProviderId = some pid then some t
      else getTransactionForProviderId rest pid

/-- repository.update({ id }, patch): applies the patch to every row with
the given id. -/
def setTxById : List UserTransaction → Nat → (UserTransaction → UserTransaction) → List UserTransaction
  | [], _, _ => []
  | t :: rest, i, f => (if t.id = i then f t else t) :: setTxById rest i f

/-- checkTransactionStatusValid: the event may proceed when the current
status is in the valid predecessor set; otherwise the handler logs a
warning and drops the event. -/
def checkTransactionStatusValid (transaction : UserTransaction)
    (validStatus : List UserTransactionStatus) : Bool :=
  decide (transaction.status ∈ validStatus)

/-- The entity returned by updateUserTransaction to its caller.  In the
update branch the source computes the status with a falsy-or
(transaction.status || nextStatus), so when the stored status is Created
(ordinal 0) the possibly-absent nextStatus is used; the field is therefore
an Option here. -/
structure ReturnedTx where
  id : Nat
  receiverId : String
  senderId : Option String
  value : Nat
  status : Option UserTransactionStatus
deriving DecidableEq

/-- updateUserTransaction: validates the event against the stored record
(receiver must match the custom-data user id; a record already Success must
not change value), then either saves a fresh row or updates value and
status of the existing row.  A nextStatus of none (undefined) leaves the
status column unwritten. -/
def updateUserTransaction (now : Nat) (transaction : Option UserTransaction)
    (nextStatus : Option UserTransactionStatus) (d : PaddleTransactionData)
    (s : PaddleState) : Except String (PaddleState × ReturnedTx) :=
  match transaction with
  | some tx =>
      if tx.receiverId ≠ d.userId then
        .error "Transaction receiver does not match user ID"
      else if tx.status = .Success ∧ tx.value ≠ d.cores then
        .error "Transaction value changed after success"
      else
        .ok ({ s with
                store := setTxById s.store tx.id (fun t =>
                  { t with
                      value := d.cores
                      status := nextStatus.getD t.status
                      updatedAt := now }) },
             ⟨tx.id, tx.receiverId, tx.senderId, d.cores,
              if tx.status = .Created then nextStatus else some tx.status⟩)
  | none =>
      let newTx : UserTransaction :=
        { id := s.nextId
          receiverId := d.userId
          senderId := none
          productId := none
          status := nextStatus.getD .Created
          value := d.cores
          fee := 0
          flagsProviderId := some d.id
          flagsError := none
          updatedAt := now }
      .ok ({ s with store := newTx :: s.store, nextId := s.nextId + 1 },
           ⟨newTx.id, newTx.receiverId, none, newTx.value, some newTx.status⟩)

/-- Modelled from the spec: purchaseCores (code missing from src/, only its
caller processTransactionCompleted is present) invokes the ledger transfer
for the completed transaction with idempotency key equal to the local
transaction id; when the circuit breaker protecting the ledger is open the
call fails with BrokenCircuitError without reaching the ledger. -/
def purchaseCores (ret : ReturnedTx) (s : PaddleState) : Except String PaddleState :=
  if s.ledgerUp then
    .ok { s with transfers := s.transfers ++ [⟨ret.id, ret.receiverId, ret.value⟩] }
  else
    .error "BrokenCircuitError"

/-- processTransactionCreated: a core transaction that already exists is a
hard error (thrown, record unchanged); otherwise a fresh row with status
Created is saved. -/
def processTransactionCreated (now : Nat) (d : PaddleTransactionData)
    (s : PaddleState) : PaddleState × Outcome :=
  if d.isCore then
    match getTransactionForProviderId s.store d.id with
    | some _ => (s, .errored "Transaction already exists")
    | none =>
        match updateUserTransaction now none (some .Created) d s with
        | .ok (s1, _) => (s1, .applied)
        | .error m => (s, .errored m)
  else (s, .ignored)

/-- processTransactionReady: when a record exists its status must be in
{Created}, else the event is dropped with a warning; the accepted event
moves the record (or a fresh one) to Processing. -/
def processTransactionReady (now : Nat) (d : PaddleTransactionData)
    (s : PaddleState) : PaddleState × Outcome :=
  if d.isCore then
    match getTransactionForProviderId s.store d.id with
    | some tx =>
        if checkTransactionStatusValid tx [.Created] then
          match updateUserTransaction now (some tx) (some .Processing) d s with
          | .ok (s1, _) => (s1, .applied)
          | .error m => (s, .errored m)
        else (s, .dropped)
    | none =>
        match updateUserTransaction now none (some .Processing) d s with
        | .ok (s1, _) => (s1, .applied)
        | .error m => (s, .errored m)
  else (s, .ignored)

/-- processTransactionPaymentFailed: requires an existing record whose
status is in {Created, Processing}; a declined error code maps to
ErrorRecoverable, anything else to Error; the update also merges an error
message into the flags (updateFlagsStatement, modelled from the spec as a
merge of the given keys). -/
def processTransactionPaymentFailed (now : Nat) (d : PaddleTransactionData)
    (errorCode : Option String) (s : PaddleState) : PaddleState × Outcome :=
  if d.isCore then
    match getTransactionForProviderId s.store d.id with
    | none => (s, .errored "Transaction not found")
    | some tx =>
        let nextStatus : UserTransactionStatus :=
          if errorCode = some "declined" then .ErrorRecoverable else .Error
        if checkTransactionStatusValid tx [.Created, .Processing] then
          ({ s with
              store := setTxById s.store tx.id (fun t =>
                { t with
                    status := nextStatus
                    flagsError := some ("Payment failed: " ++ errorCode.getD "unknown")
                    updatedAt := now }) },
           .applied)
        else (s, .dropped)
  else (s, .ignored)

/-- The inner getUpdatedStatus closure of processTransactionUpdated: the
record status when a record exists, else the provider sub-status mapped
draft to Created and ready to Processing, anything else undefined. -/
def getUpdatedStatus (transaction : Option UserTransaction)
    (eventStatus : String) : Option UserTransactionStatus :=
  match transaction with
  | some tx => some tx.status
  | none =>
      if eventStatus = "draft" then some .Created
      else if eventStatus = "ready" then some .Processing
      else none

/-- The if-not-nextStatus test of processTransactionUpdated is a
host-language falsiness test: statuses are ordinal-coded and Created is 0,
so a nextStatus that is undefined or the Created status itself is falsy. -/
def statusFalsy : Option UserTransactionStatus → Bool
  | none => true
  | some st => decide (st = .Created)

/-- The stale-duplicate test of processTransactionUpdated: a record exists
and its updatedAt is strictly newer than the provider last-modified
timestamp of the event data. -/
def staleCheck (transaction : Option UserTransaction)
    (d : PaddleTransactionData) : Bool :=
  match transaction with
  | some tx => decide (tx.updatedAt > d.updatedAt)
  | none => false

/-- processTransactionUpdated: drops the event when the local record is
newer than the provider last-modified timestamp (stale duplicate);
otherwise computes nextStatus via getUpdatedStatus and skips the event
whenever nextStatus is falsy (undefined, or the Created status of ordinal
0: in particular a draft sub-status with no record inserts nothing, and an
existing record in status Created is never written).  A surviving event
passes nextStatus to updateUserTransaction only when no record exists, so
an existing record never has its status column written. -/
def processTransactionUpdated (now : Nat) (d : PaddleTransactionData)
    (eventStatus : String) (s : PaddleState) : PaddleState × Outcome :=
  if d.isCore then
    let transaction := getTransactionForProviderId s.store d.id
    if staleCheck transaction d then (s, .dropped)
    else
      let nextStatus := getUpdatedStatus transaction eventStatus
      if statusFalsy nextStatus then (s, .dropped)
      else
        match updateUserTransaction now transaction
            (if transaction.isSome then none else nextStatus) d s with
        | .ok (s1, _) => (s1, .applied)
        | .error m => (s, .errored m)
  else (s, .ignored)

/-- processTransactionCompleted: inside one database transaction the record
is forced to Success and the ledger transfer (purchaseCores) is invoked;
if either step throws, the database transaction rolls back and the state is
left as it was.  Non-core events take the gifted-subscription path, which
never touches the transaction store. -/
def processTransactionCompleted (now : Nat) (d : PaddleTransactionData)
    (s : PaddleState) : PaddleState × Outcome :=
  if d.isCore then
    match updateUserTransaction now (getTransactionForProviderId s.store d.id)
        (some .Success) d s with
    | .error m => (s, .errored m)
    | .ok (s1, ret) =>
        match purchaseCores ret s1 with
        | .ok s2 => (s2, .applied)
        | .error m => (s, .errored m)
  else (s, .ignored)

/-- The dispatch of the webhook router for transaction-class events. -/
def processEvent (now : Nat) (e : PaddleEvent) (s : PaddleState) : PaddleState × Outcome :=
  match e with
  | .created d => processTransactionCreated now d s
  | .ready d => processTransactionReady now d s
  | .paymentFailed d c => processTransactionPaymentFailed now d c s
  | .updated d es => processTransactionUpdated now d es s
  | .completed d => processTransactionCompleted now d s

/-- Replay a sequence of deliveries; the router swallows every handler
exception, so processing always continues with the next delivery.  The
clock advances by one per delivery. -/
def replayFrom (now : Nat) (es : List PaddleEvent) (s : PaddleState) : PaddleState :=
  match es with
  | [] => s
  | e :: rest => replayFrom (now + 1) rest (processEvent now e s).1

/-- True when every delivery of the sequence is applied (no drop, no
ignore, no exception): the sequence is consistent with the state machine. -/
def acceptedFrom (now : Nat) (es : List PaddleEvent) (s : PaddleState) : Bool :=
  match es with
  | [] => true
  | e :: rest =>
      let r := processEvent now e s
      (r.2 == .applied) && acceptedFrom (now + 1) rest r.1

/-- Each event delivered twice, in order. -/
def dupEvents : List PaddleEvent → List PaddleEvent
  | [] => []
  | e :: rest => e :: e :: dupEvents rest

def initState (ledgerUp : Bool) : PaddleState :=
  ⟨[], 0, ledgerUp, []⟩

/-- All deliveries that concern the same provider transaction carry the
same cores amount. -/
def EventsConsistent (es : List PaddleEvent) : Prop :=
  ∀ e1 ∈ es, ∀ e2 ∈ es, e1.data.id = e2.data.id → e1.data.cores = e2.data.cores

/-- Every record of the store that carries the provider id of the event
data already holds its cores amount. -/
def RecOk (d : PaddleTransactionData) (l : List UserTransaction) : Prop :=
  ∀ t ∈ l, t.flagsProviderId = some d.id → t.value = d.cores

def AllRecOk (es : List PaddleEvent) (l : List UserTransaction) : Prop :=
  ∀ e ∈ es, RecOk e.data l

/-- Observable equality of states: the stores agree on every domain field
(everything but the updatedAt bookkeeping timestamp), and the id generator
and the ledger availability agree; the transfer log is not constrained. -/
def ObsEq (s1 s2 : PaddleState) : Prop :=
  obsStore s1.store = obsStore s2.store
  ∧ s1.nextId = s2.nextId ∧ s1.ledgerUp = s2.ledgerUp

/-- Well-formedness of the store: every id is below the generator and ids
are unique. -/
def StoreWf (s : PaddleState) : Prop :=
  (∀ t ∈ s.store, t.id < s.nextId)
  ∧ (∀ t ∈ s.store, ∀ u ∈ s.store, t.id = u.id → t = u)

end Paddle

namespace Njord

/-- Balance as returned by the ledger client. -/
structure GetBalanceResult where
  amount : Nat
deriving DecidableEq

/-- Failures surfaced by the ledger client wrappers: the open-circuit
error of the breaker, authorization failures of the auth-protected
wrapper and gate, and internal precondition failures inside the wrapped
call. -/
inductive NjordFailure where
  | brokenCircuit
  | forbidden (msg : String)
  | internal (msg : String)
deriving DecidableEq

/-- The caller context seen by the auth-protected functions. -/
structure NjordCtx where
  userId : Option String
  isTeamMember : Bool
deriving DecidableEq

/-- World state of the ledger client: whether the circuit breaker guarding
the njord service is open, the cached balance for the user (the redis
entry), whether the user already has a ledger account, and the current
ledger balance. -/
structure NjordState where
  circuitOpen : Bool
  cache : Option GetBalanceResult
  accountExists : Bool
  ledgerAmount : Nat
deriving DecidableEq

/-- The transaction handed to transferCores; id and senderId are nullable
and checked inside the wrapped call. -/
structure TransferTransaction where
  id : Option String
  senderId : Option String
  receiverId : String
  value : Nat
deriving DecidableEq

/-- The transfer response observed by the caller. -/
structure TransferResponse where
  idempotencyKey : String
  senderId : String
  receiverId : String
  amount : Nat
deriving DecidableEq

/-- Modelled from the spec: the GarmrService circuit breaker (code missing
from src/) short-circuits the wrapped call with BrokenCircuitError while
the breaker is open, and otherwise runs it. -/
def garmrExecute {α : Type} (st : NjordState)
    (body : NjordState → Except NjordFailure (α × NjordState)) :
    Except NjordFailure (α × NjordState) :=
  if st.circuitOpen then .error .brokenCircuit else body st

/-- createAuthProtectedFn: the wrapped function runs only when the context
carries a user id. -/
def authProtected {α : Type} (ctx : NjordCtx)
    (body : Unit → Except NjordFailure α) : Except NjordFailure α :=
  match ctx.userId with
  | none => .error (.forbidden "Auth is required")
  | some _ => body ()

/-- transferCores: gated to team members outside production readiness,
then runs the njord transfer inside the circuit breaker with idempotency
key equal to the transaction id; a successful transfer also refreshes the
balance cache for the affected parties. -/
def transferCores (isProd : Bool) (ctx : NjordCtx) (transaction : TransferTransaction)
    (st : NjordState) : Except NjordFailure (TransferResponse × NjordState) :=
  authProtected ctx (fun _ =>
    if ¬ ctx.isTeamMember ∧ isProd then
      .error (.forbidden "Not allowed for you yet")
    else
      garmrExecute st (fun st1 =>
        match transaction.id with
        | none => .error (.internal "No transaction id")
        | some key =>
            match transaction.senderId with
            | none => .error (.internal "No sender id")
            | some sid =>
                let newAmount := st1.ledgerAmount + transaction.value
                .ok (⟨key, sid, transaction.receiverId, transaction.value⟩,
                     { st1 with
                         ledgerAmount := newAmount
                         accountExists := true
                         cache := some ⟨newAmount⟩ })))

/-- getFreshBalance: fetches the balance from the ledger inside the circuit
breaker; a ledger account that does not exist yet is mapped to a zero
balance (the BalanceAccountNotFound catch). -/
def getFreshBalance (ctx : NjordCtx) (st : NjordState) :
    Except NjordFailure (GetBalanceResult × NjordState) :=
  authProtected ctx (fun _ =>
    garmrExecute st (fun st1 =>
      if st1.accountExists then .ok (⟨st1.ledgerAmount⟩, st1)
      else .ok (⟨0⟩, st1)))

/-- getBalance: returns the cached balance when present; otherwise fetches
fresh and populates the cache; a BrokenCircuitError from the fetch is
caught and degraded to a zero balance, every other failure propagates. -/
def getBalance (ctx : NjordCtx) (st : NjordState) :
    Except NjordFailure (GetBalanceResult × NjordState) :=
  authProtected ctx (fun _ =>
    match st.cache with
    | some cachedBalance => .ok (cachedBalance, st)
    | none =>
        match getFreshBalance ctx st with
        | .ok (freshBalance, st1) =>
            .ok (freshBalance, { st1 with cache := some freshBalance })
        | .error .brokenCircuit => .ok (⟨0⟩, st)
        | .error e => .error e)

end Njord

namespace StoreKit

/-- Modelled from the spec: UserSubscriptionStatus (entity code missing
from src/), with Expired among its values. -/
inductive UserSubscriptionStatus where
  | Active
  | Expired
  | Cancelled
deriving DecidableEq

/-- The caller-supplied StoreKit flag data (UserSubscriptionFlags without
status); a none field stands for an absent key.  The keys other than
appAccountToken are represented by one stand-in field. -/
structure StoreKitSubscriptionData where
  appAccountToken : Option String
  extra : Option String
deriving DecidableEq

/-- The stored subscriptionFlags column of the user row. -/
structure SubscriptionFlags where
  status : Option UserSubscriptionStatus
  appAccountToken : Option String
  extra : Option String
deriving DecidableEq

/-- Truthiness of an optional string in the host language: present and
non-empty. -/
def tokenTruthy : Option String → Bool
  | none => false
  | some s => if s = "" then false else true

def mergeKey {α : Type} (old : Option α) (patch : Option α) : Option α :=
  match patch with
  | some v => some v
  | none => old

/-- Modelled from the spec: updateSubscriptionFlags (code missing from
src/) merges the provided keys into the stored flags column; keys not
provided keep their stored values. -/
def updateSubscriptionFlags (patch : SubscriptionFlags) (stored : SubscriptionFlags) :
    SubscriptionFlags :=
  { status := mergeKey stored.status patch.status
    appAccountToken := mergeKey stored.appAccountToken patch.appAccountToken
    extra := mergeKey stored.extra patch.extra }

/-- updateStoreKitUserSubscription: returns the subscriptionFlags written
for the user, or none when no update is performed.  Without data nothing
happens; a truthy appAccountToken is removed from the cloned payload; when
the status is Expired the column is replaced by exactly the status and the
incoming appAccountToken, otherwise the cleaned payload is merged into the
stored flags. -/
def updateStoreKitUserSubscription (data : Option StoreKitSubscriptionData)
    (status : Option UserSubscriptionStatus) (stored : SubscriptionFlags) :
    Option SubscriptionFlags :=
  match data with
  | none => none
  | some d =>
      let clone := d
      let clone :=
        if tokenTruthy clone.appAccountToken then
          { clone with appAccountToken := none }
        else clone
      if status = some .Expired then
        some { status := some .Expired
               appAccountToken := d.appAccountToken
               extra := none }
      else
        some (updateSubscriptionFlags
          { status := status
            appAccountToken := clone.appAccountToken
            extra := clone.extra } stored)

end StoreKit

namespace Paddle

theorem getTransactionForProviderId_setTxById (l : List UserTransaction) (i : Nat)
    (f : UserTransaction → UserTransaction) (pid : String)
    (hf : ∀ t, (f t).flagsProviderId = t.flagsProviderId) :
    getTransactionForProviderId (setTxById l i f) pid =
      (getTransactionForProviderId l pid).map (fun t => if t.id = i then f t else t) := by
  induction l with
  | nil => rfl
  | cons t rest ih =>
      have hflag : (if t.id = i then f t else t).flagsProviderId = t.flagsProviderId := by
        split <;> simp [hf]
      simp only [setTxById, getTransactionForProviderId, hflag]
      by_cases hp : t.flagsProviderId = some pid
      · simp [hp]
      · simp [hp, ih]

theorem getTransactionForProviderId_mem {l : List UserTransaction} {pid : String}
    {t : UserTransaction} (h : getTransactionForProviderId l pid = some t) :
    t ∈ l ∧ t.flagsProviderId = some pid := by
  induction l with
  | nil => simp [getTransactionForProviderId] at h
  | cons u rest ih =>
      simp only [getTransactionForProviderId] at h
      by_cases hp : u.flagsProviderId = some pid
      · rw [if_pos hp] at h
        obtain rfl : u = t := by injection h
        exact ⟨List.mem_cons_self _ _, hp⟩
      · rw [if_neg hp] at h
        obtain ⟨hm, hflag⟩ := ih h
        exact ⟨List.mem_cons_of_mem _ hm, hflag⟩

theorem obsTx_fields {t u : UserTransaction} (h : obsTx t = obsTx u) :
    t.id = u.id ∧ t.receiverId = u.receiverId ∧ t.senderId = u.senderId
    ∧ t.productId = u.productId ∧ t.status = u.status ∧ t.value = u.value
    ∧ t.fee = u.fee ∧ t.flagsProviderId = u.flagsProviderId
    ∧ t.flagsError = u.flagsError := by
  simpa [obsTx, ObsTx.mk.injEq] using h

theorem obsEq_refl (s : PaddleState) : ObsEq s s :=
  ⟨rfl, rfl, rfl⟩

theorem obsEq_symm {s1 s2 : PaddleState} (h : ObsEq s1 s2) : ObsEq s2 s1 :=
  ⟨h.1.symm, h.2.1.symm, h.2.2.symm⟩

theorem obsEq_trans {s1 s2 s3 : PaddleState} (h : ObsEq s1 s2) (h2 : ObsEq s2 s3) :
    ObsEq s1 s3 :=
  ⟨h.1.trans h2.1, h.2.1.trans h2.2.1, h.2.2.trans h2.2.2⟩

theorem getTx_obs_congr : ∀ {l1 l2 : List UserTransaction},
    obsStore l1 = obsStore l2 → ∀ pid,
    (getTransactionForProviderId l1 pid).map obsTx
      = (getTransactionForProviderId l2 pid).map obsTx := by
  intro l1
  induction l1 with
  | nil =>
      intro l2 h pid
      cases l2 with
      | nil => rfl
      | cons u rest2 => simp [obsStore] at h
  | cons t rest ih =>
      intro l2 h pid
      cases l2 with
      | nil => simp [obsStore] at h
      | cons u rest2 =>
          simp only [obsStore, List.map_cons, List.cons.injEq] at h
          obtain ⟨hhead, htail⟩ := h
          have hflag : t.flagsProviderId = u.flagsProviderId :=
            (obsTx_fields hhead).2.2.2.2.2.2.2.1
          simp only [getTransactionForProviderId]
          by_cases hp : t.flagsProviderId = some pid
          · have hp2 : u.flagsProviderId = some pid := by rw [← hflag]; exact hp
            rw [if_pos hp, if_pos hp2]
            simp [hhead]
          · have hp2 : ¬ u.flagsProviderId = some pid := by rw [← hflag]; exact hp
            rw [if_neg hp, if_neg hp2]
            exact ih htail pid

theorem setTxById_obs_congr : ∀ {l1 l2 : List UserTransaction} (i : Nat)
    (f1 f2 : UserTransaction → UserTransaction),
    obsStore l1 = obsStore l2 →
    (∀ t u, obsTx t = obsTx u → obsTx (f1 t) = obsTx (f2 u)) →
    obsStore (setTxById l1 i f1) = obsStore (setTxById l2 i f2) := by
  intro l1
  induction l1 with
  | nil =>
      intro l2 i f1 f2 h hf
      cases l2 with
      | nil => rfl
      | cons u rest2 => simp [obsStore] at h
  | cons t rest ih =>
      intro l2 i f1 f2 h hf
      cases l2 with
      | nil => simp [obsStore] at h
      | cons u rest2 =>
          simp only [obsStore, List.map_cons, List.cons.injEq] at h
          obtain ⟨hhead, htail⟩ := h
          have hid : t.id = u.id := (obsTx_fields hhead).1
          simp only [setTxById, obsStore, List.map_cons, List.cons.injEq]
          constructor
          · by_cases hc : t.id = i
            · have hc2 : u.id = i := by rw [← hid]; exact hc
              rw [if_pos hc, if_pos hc2]
              exact hf t u hhead
            · have hc2 : ¬ u.id = i := by rw [← hid]; exact hc
              rw [if_neg hc, if_neg hc2]
              exact hhead
          · exact ih i f1 f2 htail hf

theorem setTxById_obs_id : ∀ {l : List UserTransaction} {i : Nat}
    {f : UserTransaction → UserTransaction},
    (∀ t ∈ l, t.id = i → obsTx (f t) = obsTx t) →
    obsStore (setTxById l i f) = obsStore l := by
  intro l
  induction l with
  | nil => intro i f hf; rfl
  | cons t rest ih =>
      intro i f hf
      simp only [setTxById, obsStore, List.map_cons, List.cons.injEq]
      constructor
      · by_cases hc : t.id = i
        · rw [if_pos hc]
          exact hf t (List.mem_cons_self _ _) hc
        · rw [if_neg hc]
      · exact ih (fun u hm hu => hf u (List.mem_cons_of_mem _ hm) hu)

theorem mem_setTxById : ∀ {l : List UserTransaction} {i : Nat}
    {f : UserTransaction → UserTransaction} {t' : UserTransaction},
    t' ∈ setTxById l i f →
    ∃ t, t ∈ l ∧ t' = (if t.id = i then f t else t) := by
  intro l
  induction l with
  | nil => intro i f t' h; simp [setTxById] at h
  | cons t rest ih =>
      intro i f t' h
      simp only [setTxById, List.mem_cons] at h
      rcases h with h | h
      · exact ⟨t, List.mem_cons_self _ _, h⟩
      · obtain ⟨u, hu, he⟩ := ih h
        exact ⟨u, List.mem_cons_of_mem _ hu, he⟩

/-- Every delivery either leaves the store untouched, inserts one fresh
record for the event under the generated id, or patches the records with
the id of the looked-up transaction through a flag-preserving function that
writes either the event cores or keeps the stored value. -/
theorem processEvent_store_shape (n : Nat) (e : PaddleEvent) (s : PaddleState) :
    ((processEvent n e s).1.store = s.store ∧ (processEvent n e s).1.nextId = s.nextId)
    ∨ (∃ st, (processEvent n e s).1.store =
          ({ id := s.nextId, receiverId := e.data.userId, senderId := none,
             productId := none, status := st, value := e.data.cores, fee := 0,
             flagsProviderId := some e.data.id, flagsError := none,
             updatedAt := n } : UserTransaction) :: s.store
        ∧ (processEvent n e s).1.nextId = s.nextId + 1)
    ∨ (∃ tx g, getTransactionForProviderId s.store e.data.id = some tx
        ∧ (processEvent n e s).1.store = setTxById s.store tx.id g
        ∧ (processEvent n e s).1.nextId = s.nextId
        ∧ (∀ t, (g t).id = t.id ∧ (g t).flagsProviderId = t.flagsProviderId
            ∧ ((g t).value = e.data.cores ∨ (g t).value = t.value))) := by
  cases e with
  | created d =>
      by_cases hcore : d.isCore
      · cases hlk : getTransactionForProviderId s.store d.id with
        | none =>
            right; left
            refine ⟨.Created, ?_, ?_⟩ <;>
              simp [processEvent, processTransactionCreated, hcore, hlk,
                updateUserTransaction, PaddleEvent.data]
        | some tx =>
            left
            simp [processEvent, processTransactionCreated, hcore, hlk]
      · left
        simp [processEvent, processTransactionCreated, hcore]
  | ready d =>
      by_cases hcore : d.isCore
      · cases hlk : getTransactionForProviderId s.store d.id with
        | none =>
            right; left
            refine ⟨.Processing, ?_, ?_⟩ <;>
              simp [processEvent, processTransactionReady, hcore, hlk,
                updateUserTransaction, PaddleEvent.data]
        | some tx =>
            by_cases hv : checkTransactionStatusValid tx [.Created]
            · by_cases h1 : tx.receiverId ≠ d.userId
              · left
                simp [processEvent, processTransactionReady, hcore, hlk, hv,
                  updateUserTransaction, h1]
              · by_cases h2 : tx.status = .Success ∧ tx.value ≠ d.cores
                · left
                  simp [processEvent, processTransactionReady, hcore, hlk, hv,
                    updateUserTransaction, h1, h2]
                · right; right
                  refine ⟨tx,
                    (fun t => { t with
                        value := d.cores
                        status := (some UserTransactionStatus.Processing).getD t.status
                        updatedAt := n }),
                    hlk, ?_, ?_, ?_⟩
                  · simp [processEvent, processTransactionReady, hcore, hlk, hv,
                      updateUserTransaction, h1, h2]
                  · simp [processEvent, processTransactionReady, hcore, hlk, hv,
                      updateUserTransaction, h1, h2]
                  · exact fun t => ⟨rfl, rfl, Or.inl rfl⟩
            · left
              simp [processEvent, processTransactionReady, hcore, hlk, hv]
      · left
        simp [processEvent, processTransactionReady, hcore]
  | paymentFailed d ec =>
      by_cases hcore : d.isCore
      · cases hlk : getTransactionForProviderId s.store d.id with
        | none =>
            left
            simp [processEvent, processTransactionPaymentFailed, hcore, hlk]
        | some tx =>
            by_cases hv : checkTransactionStatusValid tx [.Created, .Processing]
            · right; right
              refine ⟨tx,
                (fun t => { t with
                    status := if ec = some "declined" then
                        UserTransactionStatus.ErrorRecoverable
                      else UserTransactionStatus.Error
                    flagsError := some ("Payment failed: " ++ ec.getD "unknown")
                    updatedAt := n }),
                hlk, ?_, ?_, ?_⟩
              · simp [processEvent, processTransactionPaymentFailed, hcore, hlk, hv]
              · simp [processEvent, processTransactionPaymentFailed, hcore, hlk, hv]
              · exact fun t => ⟨rfl, rfl, Or.inr rfl⟩
            · left
              simp [processEvent, processTransactionPaymentFailed, hcore, hlk, hv]
      · left
        simp [processEvent, processTransactionPaymentFailed, hcore]
  | updated d evStatus =>
      by_cases hcore : d.isCore
      · cases hlk : getTransactionForProviderId s.store d.id with
        | none =>
            by_cases hrdy : evStatus = "ready"
            · have hd : evStatus ≠ "draft" := by rw [hrdy]; decide
              right; left
              refine ⟨.Processing, ?_, ?_⟩ <;>
                simp [processEvent, processTransactionUpdated, hcore, hlk, hd, hrdy,
                  staleCheck, getUpdatedStatus, statusFalsy,
                  updateUserTransaction, PaddleEvent.data]
            · by_cases hd : evStatus = "draft"
              · left
                simp [processEvent, processTransactionUpdated, hcore, hlk, hd,
                  staleCheck, getUpdatedStatus, statusFalsy]
              · left
                simp [processEvent, processTransactionUpdated, hcore, hlk, hd, hrdy,
                  staleCheck, getUpdatedStatus, statusFalsy]
        | some tx =>
            by_cases hstale : tx.updatedAt > d.updatedAt
            · left
              simp [processEvent, processTransactionUpdated, hcore, hlk, staleCheck,
                hstale]
            · by_cases hstC : tx.status = .Created
              · left
                simp [processEvent, processTransactionUpdated, hcore, hlk, staleCheck,
                  hstale, getUpdatedStatus, statusFalsy, hstC]
              · by_cases h1 : tx.receiverId ≠ d.userId
                · left
                  simp [processEvent, processTransactionUpdated, hcore, hlk, staleCheck,
                    hstale, getUpdatedStatus, statusFalsy, hstC,
                    updateUserTransaction, h1]
                · by_cases h2 : tx.status = .Success ∧ tx.value ≠ d.cores
                  · left
                    simp [processEvent, processTransactionUpdated, hcore, hlk, staleCheck,
                      hstale, getUpdatedStatus, statusFalsy, hstC,
                      updateUserTransaction, h1, h2]
                  · right; right
                    refine ⟨tx,
                      (fun t => { t with
                          value := d.cores
                          status := (none : Option UserTransactionStatus).getD t.status
                          updatedAt := n }),
                      hlk, ?_, ?_, ?_⟩
                    · simp [processEvent, processTransactionUpdated, hcore, hlk, staleCheck,
                        hstale, getUpdatedStatus, statusFalsy, hstC,
                        updateUserTransaction, h1, h2]
                    · simp [processEvent, processTransactionUpdated, hcore, hlk, staleCheck,
                        hstale, getUpdatedStatus, statusFalsy, hstC,
                        updateUserTransaction, h1, h2]
                    · exact fun t => ⟨rfl, rfl, Or.inl rfl⟩
      · left
        simp [processEvent, processTransactionUpdated, hcore]
  | completed d =>
      by_cases hcore : d.isCore
      · cases hlk : getTransactionForProviderId s.store d.id with
        | none =>
            by_cases hup : s.ledgerUp
            · right; left
              refine ⟨.Success, ?_, ?_⟩ <;>
                simp [processEvent, processTransactionCompleted, hcore, hlk,
                  updateUserTransaction, purchaseCores, hup, PaddleEvent.data]
            · left
              simp [processEvent, processTransactionCompleted, hcore, hlk,
                updateUserTransaction, purchaseCores, hup]
        | some tx =>
            by_cases h1 : tx.receiverId ≠ d.userId
            · left
              simp [processEvent, processTransactionCompleted, hcore, hlk,
                updateUserTransaction, h1]
            · by_cases h2 : tx.status = .Success ∧ tx.value ≠ d.cores
              · left
                simp [processEvent, processTransactionCompleted, hcore, hlk,
                  updateUserTransaction, h1, h2]
              · by_cases hup : s.ledgerUp
                · right; right
                  refine ⟨tx,
                    (fun t => { t with
                        value := d.cores
                        status := (some UserTransactionStatus.Success).getD t.status
                        updatedAt := n }),
                    hlk, ?_, ?_, ?_⟩
                  · simp [processEvent, processTransactionCompleted, hcore, hlk,
                      updateUserTransaction, h1, h2, purchaseCores, hup]
                  · simp [processEvent, processTransactionCompleted, hcore, hlk,
                      updateUserTransaction, h1, h2, purchaseCores, hup]
                  · exact fun t => ⟨rfl, rfl, Or.inl rfl⟩
                · left
                  simp [processEvent, processTransactionCompleted, hcore, hlk,
                    updateUserTransaction, h1, h2, purchaseCores, hup]
      · left
        simp [processEvent, processTransactionCompleted, hcore]

/-- Lookup correspondence between two observably equal stores. -/
theorem getTx_corr {l1 l2 : List UserTransaction} (pid : String)
    (h : obsStore l1 = obsStore l2) :
    (getTransactionForProviderId l1 pid = none
      ∧ getTransactionForProviderId l2 pid = none)
    ∨ (∃ tx1 tx2, getTransactionForProviderId l1 pid = some tx1
        ∧ getTransactionForProviderId l2 pid = some tx2 ∧ obsTx tx1 = obsTx tx2) := by
  have h12 := getTx_obs_congr h pid
  cases h1 : getTransactionForProviderId l1 pid with
  | none =>
      cases h2 : getTransactionForProviderId l2 pid with
      | none => exact Or.inl ⟨rfl, rfl⟩
      | some tx2 => rw [h1, h2] at h12; simp at h12
  | some tx1 =>
      cases h2 : getTransactionForProviderId l2 pid with
      | none => rw [h1, h2] at h12; simp at h12
      | some tx2 =>
          right
          refine ⟨tx1, tx2, rfl, rfl, ?_⟩
          rw [h1, h2] at h12
          simpa using h12

theorem storeWf_processEvent (n : Nat) (e : PaddleEvent) (s : PaddleState)
    (hw : StoreWf s) : StoreWf (processEvent n e s).1 := by
  rcases processEvent_store_shape n e s with ⟨hs, hn⟩ | ⟨st, hs, hn⟩ |
    ⟨tx, g, hlk, hs, hn, hg⟩
  · exact ⟨fun t ht => hn ▸ hw.1 t (hs ▸ ht), fun t ht u hu => hw.2 t (hs ▸ ht) u (hs ▸ hu)⟩
  · constructor
    · intro t ht
      rw [hs] at ht
      rw [hn]
      rcases List.mem_cons.mp ht with rfl | ht
      · exact Nat.lt_succ_self _
      · exact Nat.lt_succ_of_lt (hw.1 t ht)
    · intro t ht u hu hid
      rw [hs] at ht hu
      rcases List.mem_cons.mp ht with rfl | ht <;> rcases List.mem_cons.mp hu with rfl | hu
      · rfl
      · exfalso
        have hu2 := hw.1 u hu
        have hne : s.nextId = u.id := by simpa using hid
        omega
      · exfalso
        have ht2 := hw.1 t ht
        have hne : s.nextId = t.id := by simpa using hid.symm
        omega
      · exact hw.2 t ht u hu hid
  · constructor
    · intro t ht
      rw [hs] at ht
      rw [hn]
      obtain ⟨t0, ht0, hte⟩ := mem_setTxById ht
      have hid : t.id = t0.id := by
        rw [hte]
        split
        · exact (hg t0).1
        · rfl
      rw [hid]
      exact hw.1 t0 ht0
    · intro t ht u hu hid
      rw [hs] at ht hu
      obtain ⟨t0, ht0, hte⟩ := mem_setTxById ht
      obtain ⟨u0, hu0, hue⟩ := mem_setTxById hu
      have hid1 : t.id = t0.id := by
        rw [hte]; split
        · exact (hg t0).1
        · rfl
      have hid2 : u.id = u0.id := by
        rw [hue]; split
        · exact (hg u0).1
        · rfl
      have h00 : t0 = u0 := hw.2 t0 ht0 u0 hu0 (by rw [← hid1, ← hid2]; exact hid)
      rw [hte, hue, h00]

theorem recOk_processEvent (n : Nat) (e : PaddleEvent) (s : PaddleState)
    (d2 : PaddleTransactionData) (hw : StoreWf s) (h : RecOk d2 s.store)
    (hc : e.data.id = d2.id → e.data.cores = d2.cores) :
    RecOk d2 (processEvent n e s).1.store := by
  rcases processEvent_store_shape n e s with ⟨hs, hn⟩ | ⟨st, hs, hn⟩ |
    ⟨tx, g, hlk, hs, hn, hg⟩
  · rw [hs]; exact h
  · rw [hs]
    intro t ht hflag
    rcases List.mem_cons.mp ht with rfl | ht
    · simp only at hflag
      have hide : e.data.id = d2.id := by
        injection hflag
      simp [hc hide]
    · exact h t ht hflag
  · rw [hs]
    intro t ht hflag
    obtain ⟨t0, ht0, hte⟩ := mem_setTxById ht
    by_cases hcase : t0.id = tx.id
    · rw [hte, if_pos hcase] at hflag ⊢
      rw [(hg t0).2.1] at hflag
      rcases (hg t0).2.2 with hval | hval
      · rw [hval]
        have h00 : t0 = tx := hw.2 t0 ht0 tx (getTransactionForProviderId_mem hlk).1 hcase
        have hide : e.data.id = d2.id := by
          have := (getTransactionForProviderId_mem hlk).2
          rw [← h00] at this
          rw [this] at hflag
          injection hflag
        exact hc hide
      · rw [hval]
        exact h t0 ht0 hflag
    · rw [hte, if_neg hcase] at hflag ⊢
      exact h t0 ht0 hflag

/-- Processing the same event in two observably equal states, under the
store invariants, yields observably equal states, whatever the two
processing clocks are. -/
theorem processEvent_obs_congr (n1 n2 : Nat) (e : PaddleEvent)
    (s1 s2 : PaddleState) (hobs : ObsEq s1 s2)
    (hw1 : StoreWf s1) (hw2 : StoreWf s2)
    (hr1 : RecOk e.data s1.store) (hr2 : RecOk e.data s2.store) :
    ObsEq (processEvent n1 e s1).1 (processEvent n2 e s2).1 := by
  obtain ⟨hst, hnid, hled⟩ := hobs
  cases e with
  | created d =>
      by_cases hcore : d.isCore
      · rcases getTx_corr d.id hst with ⟨hlk1, hlk2⟩ | ⟨tx1, tx2, hlk1, hlk2, htx⟩
        · simp only [processEvent]
          simp [processTransactionCreated, hcore, hlk1, hlk2, updateUserTransaction]
          refine ⟨?_, by simp [hnid], by simp [hled]⟩
          simp only [obsStore, List.map_cons]
          congr 1 <;> first
            | simp [obsTx, hnid]
            | simpa [obsStore] using hst
        · simp only [processEvent]
          simp [processTransactionCreated, hcore, hlk1, hlk2]
          exact ⟨hst, hnid, hled⟩
      · simp only [processEvent]
        simp [processTransactionCreated, hcore]
        exact ⟨hst, hnid, hled⟩
  | ready d =>
      by_cases hcore : d.isCore
      · rcases getTx_corr d.id hst with ⟨hlk1, hlk2⟩ | ⟨tx1, tx2, hlk1, hlk2, htx⟩
        · simp only [processEvent]
          simp [processTransactionReady, hcore, hlk1, hlk2, updateUserTransaction]
          refine ⟨?_, by simp [hnid], by simp [hled]⟩
          simp only [obsStore, List.map_cons]
          congr 1 <;> first
            | simp [obsTx, hnid]
            | simpa [obsStore] using hst
        · obtain ⟨hid, hrecv, hsend, hprod, hstat, hval, hfee, hflag, herr⟩ :=
            obsTx_fields htx
          have hv2 : checkTransactionStatusValid tx2 [.Created]
              = checkTransactionStatusValid tx1 [.Created] := by
            simp [checkTransactionStatusValid, ← hstat]
          by_cases hv : checkTransactionStatusValid tx1 [.Created] = true
          · by_cases h1 : tx1.receiverId ≠ d.userId
            · have h1b : tx2.receiverId ≠ d.userId := by rw [← hrecv]; exact h1
              simp only [processEvent]
              simp [processTransactionReady, hcore, hlk1, hlk2, hv, hv2,
                updateUserTransaction, h1, h1b]
              exact ⟨hst, hnid, hled⟩
            · have h1b : ¬ tx2.receiverId ≠ d.userId := by rw [← hrecv]; exact h1
              by_cases h2 : tx1.status = .Success ∧ tx1.value ≠ d.cores
              · have h2b : tx2.status = .Success ∧ tx2.value ≠ d.cores := by
                  rw [← hstat, ← hval]; exact h2
                simp only [processEvent]
                simp [processTransactionReady, hcore, hlk1, hlk2, hv, hv2,
                  updateUserTransaction, h1, h1b, h2, h2b]
                exact ⟨hst, hnid, hled⟩
              · have h2b : ¬ (tx2.status = .Success ∧ tx2.value ≠ d.cores) := by
                  rw [← hstat, ← hval]; exact h2
                simp only [processEvent]
                simp [processTransactionReady, hcore, hlk1, hlk2, hv, hv2,
                  updateUserTransaction, h1, h1b, h2, h2b]
                refine ⟨?_, by simp [hnid], by simp [hled]⟩
                rw [hid]
                refine setTxById_obs_congr tx2.id _ _ hst ?_
                intro t u htu
                obtain ⟨g1, g2, g3, g4, g5, g6, g7, g8, g9⟩ := obsTx_fields htu
                simp [obsTx, g1, g2, g3, g4, g5, g6, g7, g8, g9]
          · have hvf : checkTransactionStatusValid tx1 [.Created] = false := by
              simpa using hv
            simp only [processEvent]
            simp [processTransactionReady, hcore, hlk1, hlk2, hv2, hvf]
            exact ⟨hst, hnid, hled⟩
      · simp only [processEvent]
        simp [processTransactionReady, hcore]
        exact ⟨hst, hnid, hled⟩
  | paymentFailed d ec =>
      by_cases hcore : d.isCore
      · rcases getTx_corr d.id hst with ⟨hlk1, hlk2⟩ | ⟨tx1, tx2, hlk1, hlk2, htx⟩
        · simp only [processEvent]
          simp [processTransactionPaymentFailed, hcore, hlk1, hlk2]
          exact ⟨hst, hnid, hled⟩
        · obtain ⟨hid, hrecv, hsend, hprod, hstat, hval, hfee, hflag, herr⟩ :=
            obsTx_fields htx
          have hv2 : checkTransactionStatusValid tx2 [.Created, .Processing]
              = checkTransactionStatusValid tx1 [.Created, .Processing] := by
            simp [checkTransactionStatusValid, ← hstat]
          by_cases hv : checkTransactionStatusValid tx1 [.Created, .Processing] = true
          · simp only [processEvent]
            simp [processTransactionPaymentFailed, hcore, hlk1, hlk2, hv, hv2]
            refine ⟨?_, by simp [hnid], by simp [hled]⟩
            rw [hid]
            refine setTxById_obs_congr tx2.id _ _ hst ?_
            intro t u htu
            obtain ⟨g1, g2, g3, g4, g5, g6, g7, g8, g9⟩ := obsTx_fields htu
            simp [obsTx, g1, g2, g3, g4, g5, g6, g7, g8, g9]
          · have hvf : checkTransactionStatusValid tx1 [.Created, .Processing] = false := by
              simpa using hv
            simp only [processEvent]
            simp [processTransactionPaymentFailed, hcore, hlk1, hlk2, hv2, hvf]
            exact ⟨hst, hnid, hled⟩
      · simp only [processEvent]
        simp [processTransactionPaymentFailed, hcore]
        exact ⟨hst, hnid, hled⟩
  | updated d evStatus =>
      simp only [PaddleEvent.data] at hr1 hr2
      by_cases hcore : d.isCore
      · rcases getTx_corr d.id hst with ⟨hlk1, hlk2⟩ | ⟨tx1, tx2, hlk1, hlk2, htx⟩
        · by_cases hrdy : evStatus = "ready"
          · have hd : evStatus ≠ "draft" := by rw [hrdy]; decide
            simp only [processEvent]
            simp [processTransactionUpdated, hcore, hlk1, hlk2, hd, hrdy,
              staleCheck, getUpdatedStatus, statusFalsy, updateUserTransaction]
            refine ⟨?_, by simp [hnid], by simp [hled]⟩
            simp only [obsStore, List.map_cons]
            congr 1 <;> first
              | simp [obsTx, hnid]
              | simpa [obsStore] using hst
          · by_cases hd : evStatus = "draft"
            · simp only [processEvent]
              simp [processTransactionUpdated, hcore, hlk1, hlk2, hd,
                staleCheck, getUpdatedStatus, statusFalsy]
              exact ⟨hst, hnid, hled⟩
            · simp only [processEvent]
              simp [processTransactionUpdated, hcore, hlk1, hlk2, hd, hrdy,
                staleCheck, getUpdatedStatus, statusFalsy]
              exact ⟨hst, hnid, hled⟩
        · obtain ⟨hid, hrecv, hsend, hprod, hstat, hval, hfee, hflag, herr⟩ :=
            obsTx_fields htx
          have hmem1 := getTransactionForProviderId_mem hlk1
          have hmem2 := getTransactionForProviderId_mem hlk2
          have hcores1 : tx1.value = d.cores := hr1 tx1 hmem1.1 hmem1.2
          have hcores2 : tx2.value = d.cores := hr2 tx2 hmem2.1 hmem2.2
          have h2 : ¬ (tx1.status = .Success ∧ tx1.value ≠ d.cores) := by
            rintro ⟨-, hne⟩
            exact hne hcores1
          have h2b : ¬ (tx2.status = .Success ∧ tx2.value ≠ d.cores) := by
            rintro ⟨-, hne⟩
            exact hne hcores2
          by_cases hstC : tx1.status = .Created
          · have hstC2 : tx2.status = .Created := by rw [← hstat]; exact hstC
            simp only [processEvent]
            simp [processTransactionUpdated, hcore, hlk1, hlk2, staleCheck,
              getUpdatedStatus, statusFalsy, hstC, hstC2]
            exact ⟨hst, hnid, hled⟩
          · have hstC2 : ¬ tx2.status = .Created := by rw [← hstat]; exact hstC
            by_cases hstale1 : tx1.updatedAt > d.updatedAt <;>
              by_cases hstale2 : tx2.updatedAt > d.updatedAt
            · simp only [processEvent]
              simp [processTransactionUpdated, hcore, hlk1, hlk2, staleCheck,
                hstale1, hstale2]
              exact ⟨hst, hnid, hled⟩
            · by_cases h1 : tx1.receiverId ≠ d.userId
              · have h1b : tx2.receiverId ≠ d.userId := by rw [← hrecv]; exact h1
                simp only [processEvent]
                simp [processTransactionUpdated, hcore, hlk1, hlk2, staleCheck,
                  hstale1, hstale2, getUpdatedStatus, statusFalsy, hstC, hstC2,
                  updateUserTransaction, h1, h1b]
                exact ⟨hst, hnid, hled⟩
              · have h1b : ¬ tx2.receiverId ≠ d.userId := by rw [← hrecv]; exact h1
                simp only [processEvent]
                simp [processTransactionUpdated, hcore, hlk1, hlk2, staleCheck,
                  hstale1, hstale2, getUpdatedStatus, statusFalsy, hstC, hstC2,
                  updateUserTransaction, h1, h1b, h2, h2b]
                refine ⟨?_, by simp [hnid], by simp [hled]⟩
                refine hst.trans (Eq.symm (setTxById_obs_id ?_))
                intro t ht hidt
                have ht1 : t = tx2 := hw2.2 t ht tx2 hmem2.1 hidt
                subst ht1
                simp [obsTx, hcores2]
            · by_cases h1 : tx1.receiverId ≠ d.userId
              · have h1b : tx2.receiverId ≠ d.userId := by rw [← hrecv]; exact h1
                simp only [processEvent]
                simp [processTransactionUpdated, hcore, hlk1, hlk2, staleCheck,
                  hstale1, hstale2, getUpdatedStatus, statusFalsy, hstC, hstC2,
                  updateUserTransaction, h1, h1b]
                exact ⟨hst, hnid, hled⟩
              · have h1b : ¬ tx2.receiverId ≠ d.userId := by rw [← hrecv]; exact h1
                simp only [processEvent]
                simp [processTransactionUpdated, hcore, hlk1, hlk2, staleCheck,
                  hstale1, hstale2, getUpdatedStatus, statusFalsy, hstC, hstC2,
                  updateUserTransaction, h1, h1b, h2, h2b]
                refine ⟨?_, by simp [hnid], by simp [hled]⟩
                refine Eq.trans (setTxById_obs_id ?_) hst
                intro t ht hidt
                have ht1 : t = tx1 := hw1.2 t ht tx1 hmem1.1 hidt
                subst ht1
                simp [obsTx, hcores1]
            · by_cases h1 : tx1.receiverId ≠ d.userId
              · have h1b : tx2.receiverId ≠ d.userId := by rw [← hrecv]; exact h1
                simp only [processEvent]
                simp [processTransactionUpdated, hcore, hlk1, hlk2, staleCheck,
                  hstale1, hstale2, getUpdatedStatus, statusFalsy, hstC, hstC2,
                  updateUserTransaction, h1, h1b]
                exact ⟨hst, hnid, hled⟩
              · have h1b : ¬ tx2.receiverId ≠ d.userId := by rw [← hrecv]; exact h1
                simp only [processEvent]
                simp [processTransactionUpdated, hcore, hlk1, hlk2, staleCheck,
                  hstale1, hstale2, getUpdatedStatus, statusFalsy, hstC, hstC2,
                  updateUserTransaction, h1, h1b, h2, h2b]
                refine ⟨?_, by simp [hnid], by simp [hled]⟩
                rw [hid]
                refine setTxById_obs_congr tx2.id _ _ hst ?_
                intro t u htu
                obtain ⟨g1, g2, g3, g4, g5, g6, g7, g8, g9⟩ := obsTx_fields htu
                simp [obsTx, g1, g2, g3, g4, g5, g6, g7, g8, g9]
      · simp only [processEvent]
        simp [processTransactionUpdated, hcore]
        exact ⟨hst, hnid, hled⟩
  | completed d =>
      by_cases hcore : d.isCore
      · rcases getTx_corr d.id hst with ⟨hlk1, hlk2⟩ | ⟨tx1, tx2, hlk1, hlk2, htx⟩
        · by_cases hup : s1.ledgerUp = true
          · have hup2 : s2.ledgerUp = true := hled ▸ hup
            simp only [processEvent]
            simp [processTransactionCompleted, hcore, hlk1, hlk2,
              updateUserTransaction, purchaseCores, hup, hup2]
            refine ⟨?_, by simp [hnid], by simp [hled]⟩
            simp only [obsStore, List.map_cons]
            congr 1 <;> first
              | simp [obsTx, hnid]
              | simpa [obsStore] using hst
          · have hup2 : ¬ s2.ledgerUp = true := hled ▸ hup
            simp only [processEvent]
            simp [processTransactionCompleted, hcore, hlk1, hlk2,
              updateUserTransaction, purchaseCores, hup, hup2]
            exact ⟨hst, hnid, hled⟩
        · obtain ⟨hid, hrecv, hsend, hprod, hstat, hval, hfee, hflag, herr⟩ :=
            obsTx_fields htx
          by_cases h1 : tx1.receiverId ≠ d.userId
          · have h1b : tx2.receiverId ≠ d.userId := by rw [← hrecv]; exact h1
            simp only [processEvent]
            simp [processTransactionCompleted, hcore, hlk1, hlk2,
              updateUserTransaction, h1, h1b]
            exact ⟨hst, hnid, hled⟩
          · have h1b : ¬ tx2.receiverId ≠ d.userId := by rw [← hrecv]; exact h1
            by_cases h2 : tx1.status = .Success ∧ tx1.value ≠ d.cores
            · have h2b : tx2.status = .Success ∧ tx2.value ≠ d.cores := by
                rw [← hstat, ← hval]; exact h2
              simp only [processEvent]
              simp [processTransactionCompleted, hcore, hlk1, hlk2,
                updateUserTransaction, h1, h1b, h2, h2b]
              exact ⟨hst, hnid, hled⟩
            · have h2b : ¬ (tx2.status = .Success ∧ tx2.value ≠ d.cores) := by
                rw [← hstat, ← hval]; exact h2
              by_cases hup : s1.ledgerUp = true
              · have hup2 : s2.ledgerUp = true := hled ▸ hup
                simp only [processEvent]
                simp [processTransactionCompleted, hcore, hlk1, hlk2,
                  updateUserTransaction, h1, h1b, h2, h2b, purchaseCores, hup, hup2]
                refine ⟨?_, by simp [hnid], by simp [hled]⟩
                rw [hid]
                refine setTxById_obs_congr tx2.id _ _ hst ?_
                intro t u htu
                obtain ⟨g1, g2, g3, g4, g5, g6, g7, g8, g9⟩ := obsTx_fields htu
                simp [obsTx, g1, g2, g3, g4, g5, g6, g7, g8, g9]
              · have hup2 : ¬ s2.ledgerUp = true := hled ▸ hup
                simp only [processEvent]
                simp [processTransactionCompleted, hcore, hlk1, hlk2,
                  updateUserTransaction, h1, h1b, h2, h2b, purchaseCores, hup, hup2]
                exact ⟨hst, hnid, hled⟩
      · simp only [processEvent]
        simp [processTransactionCompleted, hcore]
        exact ⟨hst, hnid, hled⟩

theorem mem_setTxById_self : ∀ {l : List UserTransaction} {tx : UserTransaction},
    tx ∈ l → ∀ (i : Nat) (f : UserTransaction → UserTransaction),
    (if tx.id = i then f tx else tx) ∈ setTxById l i f := by
  intro l
  induction l with
  | nil => intro tx h; simp at h
  | cons t rest ih =>
      intro tx h i f
      rcases List.mem_cons.mp h with rfl | h
      · exact List.mem_cons_self _ _
      · exact List.mem_cons_of_mem _ (ih h i f)

theorem setTx_obs_noop (r : PaddleState) (hwr : StoreWf r) (i : Nat)
    (tx2 : UserTransaction) (g : UserTransaction → UserTransaction)
    (hmem : tx2 ∈ r.store) (hid : tx2.id = i)
    (hg : obsTx (g tx2) = obsTx tx2) :
    obsStore (setTxById r.store i g) = obsStore r.store := by
  refine setTxById_obs_id ?_
  intro t ht hidt
  have ht2 : t = tx2 := hwr.2 t ht tx2 hmem (by rw [hidt, hid])
  subst ht2
  exact hg

/-- Re-delivering the very same event immediately after it was processed is
an observable no-op: whatever the clocks, the second processing leaves the
domain fields of every record unchanged. -/
theorem processEvent_idem (n m : Nat) (e : PaddleEvent) (s : PaddleState)
    (hw : StoreWf s) (hr : RecOk e.data s.store) :
    ObsEq (processEvent m e (processEvent n e s).1).1 (processEvent n e s).1 := by
  have hwr := storeWf_processEvent n e s hw
  cases e with
  | created d =>
      by_cases hcore : d.isCore
      · cases hlk : getTransactionForProviderId s.store d.id with
        | some tx =>
            simp [processEvent, processTransactionCreated, hcore, hlk]
            exact obsEq_refl _
        | none =>
            simp [processEvent, processTransactionCreated, hcore, hlk,
              updateUserTransaction, getTransactionForProviderId]
            exact obsEq_refl _
      · simp [processEvent, processTransactionCreated, hcore]
        exact obsEq_refl _
  | ready d =>
      by_cases hcore : d.isCore
      · cases hlk : getTransactionForProviderId s.store d.id with
        | some tx =>
            by_cases hv : checkTransactionStatusValid tx [.Created] = true
            · have hstc : tx.status = .Created := by
                simpa [checkTransactionStatusValid] using hv
              by_cases h1 : tx.receiverId ≠ d.userId
              · simp [processEvent, processTransactionReady, hcore, hlk, hv,
                  updateUserTransaction, h1]
                exact obsEq_refl _
              · have h2 : ¬ (tx.status = .Success ∧ tx.value ≠ d.cores) := by
                  rintro ⟨hsucc, -⟩
                  rw [hstc] at hsucc
                  cases hsucc
                have hstore : (processEvent n (.ready d) s).1.store
                    = setTxById s.store tx.id (fun t =>
                        { t with
                            value := d.cores
                            status := (some UserTransactionStatus.Processing).getD t.status
                            updatedAt := n }) := by
                  simp [processEvent, processTransactionReady, hcore, hlk, hv,
                    updateUserTransaction, h1, h2]
                have hlk2 : getTransactionForProviderId
                    (processEvent n (.ready d) s).1.store d.id
                    = some { tx with
                        value := d.cores
                        status := UserTransactionStatus.Processing
                        updatedAt := n } := by
                  rw [hstore, getTransactionForProviderId_setTxById] <;>
                    try exact fun t => rfl
                  rw [hlk]
                  simp
                generalize hgen : (processEvent n (PaddleEvent.ready d) s).1 = r
                rw [hgen] at hlk2
                simp [processEvent, processTransactionReady, hcore, hlk2,
                  checkTransactionStatusValid]
                exact obsEq_refl _
            · have hvf : checkTransactionStatusValid tx [.Created] = false := by
                simpa using hv
              simp [processEvent, processTransactionReady, hcore, hlk, hvf]
              exact obsEq_refl _
        | none =>
            simp [processEvent, processTransactionReady, hcore, hlk,
              updateUserTransaction, getTransactionForProviderId,
              checkTransactionStatusValid]
            exact obsEq_refl _
      · simp [processEvent, processTransactionReady, hcore]
        exact obsEq_refl _
  | paymentFailed d ec =>
      by_cases hcore : d.isCore
      · cases hlk : getTransactionForProviderId s.store d.id with
        | some tx =>
            by_cases hv : checkTransactionStatusValid tx [.Created, .Processing] = true
            · by_cases hec : ec = some "declined"
              · have hstore : (processEvent n (.paymentFailed d ec) s).1.store
                    = setTxById s.store tx.id (fun t =>
                        { t with
                            status := UserTransactionStatus.ErrorRecoverable
                            flagsError := some ("Payment failed: " ++ ec.getD "unknown")
                            updatedAt := n }) := by
                  simp [processEvent, processTransactionPaymentFailed, hcore, hlk,
                    hv, hec]
                have hlk2 : getTransactionForProviderId
                    (processEvent n (.paymentFailed d ec) s).1.store d.id
                    = some { tx with
                        status := UserTransactionStatus.ErrorRecoverable
                        flagsError := some ("Payment failed: " ++ ec.getD "unknown")
                        updatedAt := n } := by
                  rw [hstore, getTransactionForProviderId_setTxById] <;>
                    try exact fun t => rfl
                  rw [hlk]
                  simp
                generalize hgen : (processEvent n (PaddleEvent.paymentFailed d ec) s).1 = r
                rw [hgen] at hlk2
                simp [processEvent, processTransactionPaymentFailed, hcore, hlk2,
                  checkTransactionStatusValid]
                exact obsEq_refl _
              · have hstore : (processEvent n (.paymentFailed d ec) s).1.store
                    = setTxById s.store tx.id (fun t =>
                        { t with
                            status := UserTransactionStatus.Error
                            flagsError := some ("Payment failed: " ++ ec.getD "unknown")
                            updatedAt := n }) := by
                  simp [processEvent, processTransactionPaymentFailed, hcore, hlk,
                    hv, hec]
                have hlk2 : getTransactionForProviderId
                    (processEvent n (.paymentFailed d ec) s).1.store d.id
                    = some { tx with
                        status := UserTransactionStatus.Error
                        flagsError := some ("Payment failed: " ++ ec.getD "unknown")
                        updatedAt := n } := by
                  rw [hstore, getTransactionForProviderId_setTxById] <;>
                    try exact fun t => rfl
                  rw [hlk]
                  simp
                generalize hgen : (processEvent n (PaddleEvent.paymentFailed d ec) s).1 = r
                rw [hgen] at hlk2
                simp [processEvent, processTransactionPaymentFailed, hcore, hlk2,
                  checkTransactionStatusValid]
                exact obsEq_refl _
            · have hvf : checkTransactionStatusValid tx [.Created, .Processing]
                  = false := by
                simpa using hv
              simp [processEvent, processTransactionPaymentFailed, hcore, hlk, hvf]
              exact obsEq_refl _
        | none =>
            simp [processEvent, processTransactionPaymentFailed, hcore, hlk]
            exact obsEq_refl _
      · simp [processEvent, processTransactionPaymentFailed, hcore]
        exact obsEq_refl _
  | updated d evStatus =>
      simp only [PaddleEvent.data] at hr
      by_cases hcore : d.isCore
      · cases hlk : getTransactionForProviderId s.store d.id with
        | some tx =>
            have hmem := getTransactionForProviderId_mem hlk
            have hcores : tx.value = d.cores := hr tx hmem.1 hmem.2
            by_cases hstale : tx.updatedAt > d.updatedAt
            · simp [processEvent, processTransactionUpdated, hcore, hlk, staleCheck,
                hstale]
              exact obsEq_refl _
            · by_cases hstC : tx.status = .Created
              · simp [processEvent, processTransactionUpdated, hcore, hlk, staleCheck,
                  hstale, getUpdatedStatus, statusFalsy, hstC]
                exact obsEq_refl _
              · by_cases h1 : tx.receiverId ≠ d.userId
                · simp [processEvent, processTransactionUpdated, hcore, hlk, staleCheck,
                    hstale, getUpdatedStatus, statusFalsy, hstC,
                    updateUserTransaction, h1]
                  exact obsEq_refl _
                · have h2 : ¬ (tx.status = .Success ∧ tx.value ≠ d.cores) := by
                    rintro ⟨-, hne⟩
                    exact hne hcores
                  have hstore : (processEvent n (.updated d evStatus) s).1.store
                      = setTxById s.store tx.id (fun t =>
                          { t with
                              value := d.cores
                              status := (none : Option UserTransactionStatus).getD t.status
                              updatedAt := n }) := by
                    simp [processEvent, processTransactionUpdated, hcore, hlk, staleCheck,
                      hstale, getUpdatedStatus, statusFalsy, hstC,
                      updateUserTransaction, h1, h2]
                  have hlk2 : getTransactionForProviderId
                      (processEvent n (.updated d evStatus) s).1.store d.id
                      = some { tx with
                          value := d.cores
                          status := tx.status
                          updatedAt := n } := by
                    rw [hstore, getTransactionForProviderId_setTxById] <;>
                      try exact fun t => rfl
                    rw [hlk]
                    simp
                  have hmem2 : ({ tx with
                      value := d.cores
                      status := tx.status
                      updatedAt := n } : UserTransaction)
                      ∈ (processEvent n (.updated d evStatus) s).1.store := by
                    rw [hstore]
                    have hself := mem_setTxById_self hmem.1 tx.id (fun t =>
                      { t with
                          value := d.cores
                          status := (none : Option UserTransactionStatus).getD t.status
                          updatedAt := n })
                    rw [if_pos rfl] at hself
                    exact hself
                  generalize hgen : (processEvent n (PaddleEvent.updated d evStatus) s).1 = r
                  rw [hgen] at hlk2 hmem2 hwr
                  by_cases hstale2 : n > d.updatedAt
                  · simp [processEvent, processTransactionUpdated, hcore, hlk2, staleCheck,
                      hstale2]
                    exact obsEq_refl _
                  · simp [processEvent, processTransactionUpdated, hcore, hlk2, staleCheck,
                      hstale2, getUpdatedStatus, statusFalsy, hstC,
                      updateUserTransaction, h1]
                    refine ⟨?_, by simp, by simp⟩
                    exact setTx_obs_noop r hwr tx.id _ _ hmem2 (by simp)
                      (by simp [obsTx])
        | none =>
            by_cases hrdy : evStatus = "ready"
            · have hd : evStatus ≠ "draft" := by rw [hrdy]; decide
              have hstore : (processEvent n (.updated d evStatus) s).1.store
                  = (⟨s.nextId, d.userId, none, none, .Processing, d.cores, 0,
                      some d.id, none, n⟩ : UserTransaction) :: s.store := by
                simp [processEvent, processTransactionUpdated, hcore, hlk, hd, hrdy,
                  staleCheck, getUpdatedStatus, statusFalsy, updateUserTransaction]
              have hlk2 : getTransactionForProviderId
                  (processEvent n (.updated d evStatus) s).1.store d.id
                  = some ⟨s.nextId, d.userId, none, none, .Processing, d.cores, 0,
                      some d.id, none, n⟩ := by
                rw [hstore]
                simp [getTransactionForProviderId]
              have hmem2 : (⟨s.nextId, d.userId, none, none, .Processing, d.cores, 0,
                  some d.id, none, n⟩ : UserTransaction)
                  ∈ (processEvent n (.updated d evStatus) s).1.store := by
                rw [hstore]
                exact List.mem_cons_self _ _
              generalize hgen : (processEvent n (PaddleEvent.updated d evStatus) s).1 = r
              rw [hgen] at hlk2 hmem2 hwr
              by_cases hstale2 : n > d.updatedAt
              · simp [processEvent, processTransactionUpdated, hcore, hlk2, staleCheck,
                  hstale2]
                exact obsEq_refl _
              · simp [processEvent, processTransactionUpdated, hcore, hlk2, staleCheck,
                  hstale2, getUpdatedStatus, statusFalsy, updateUserTransaction]
                refine ⟨?_, by simp, by simp⟩
                exact setTx_obs_noop r hwr s.nextId _ _ hmem2 (by simp)
                  (by simp [obsTx])
            · by_cases hd : evStatus = "draft"
              · simp [processEvent, processTransactionUpdated, hcore, hlk, hd,
                  staleCheck, getUpdatedStatus, statusFalsy]
                exact obsEq_refl _
              · simp [processEvent, processTransactionUpdated, hcore, hlk, hd, hrdy,
                  staleCheck, getUpdatedStatus, statusFalsy]
                exact obsEq_refl _
      · simp [processEvent, processTransactionUpdated, hcore]
        exact obsEq_refl _
  | completed d =>
      by_cases hcore : d.isCore
      · by_cases hup : s.ledgerUp = true
        · cases hlk : getTransactionForProviderId s.store d.id with
          | some tx =>
              by_cases h1 : tx.receiverId ≠ d.userId
              · simp [processEvent, processTransactionCompleted, hcore, hlk,
                  updateUserTransaction, h1]
                exact obsEq_refl _
              · by_cases h2 : tx.status = .Success ∧ tx.value ≠ d.cores
                · simp [processEvent, processTransactionCompleted, hcore, hlk,
                    updateUserTransaction, h1, h2]
                  exact obsEq_refl _
                · have hstore : (processEvent n (.completed d) s).1.store
                      = setTxById s.store tx.id (fun t =>
                          { t with
                              value := d.cores
                              status := (some UserTransactionStatus.Success).getD t.status
                              updatedAt := n }) := by
                    simp [processEvent, processTransactionCompleted, hcore, hlk,
                      updateUserTransaction, h1, h2, purchaseCores, hup]
                  have hledr : (processEvent n (.completed d) s).1.ledgerUp = true := by
                    simp [processEvent, processTransactionCompleted, hcore, hlk,
                      updateUserTransaction, h1, h2, purchaseCores, hup]
                  have hmem := getTransactionForProviderId_mem hlk
                  have hlk2 : getTransactionForProviderId
                      (processEvent n (.completed d) s).1.store d.id
                      = some { tx with
                          value := d.cores
                          status := UserTransactionStatus.Success
                          updatedAt := n } := by
                    rw [hstore, getTransactionForProviderId_setTxById] <;>
                      try exact fun t => rfl
                    rw [hlk]
                    simp
                  have hmem2 : ({ tx with
                      value := d.cores
                      status := UserTransactionStatus.Success
                      updatedAt := n } : UserTransaction)
                      ∈ (processEvent n (.completed d) s).1.store := by
                    rw [hstore]
                    have hself := mem_setTxById_self hmem.1 tx.id (fun t =>
                      { t with
                          value := d.cores
                          status := (some UserTransactionStatus.Success).getD t.status
                          updatedAt := n })
                    rw [if_pos rfl] at hself
                    exact hself
                  have hrecv : tx.receiverId = d.userId := not_not.mp h1
                  generalize hgen : (processEvent n (PaddleEvent.completed d) s).1 = r
                  rw [hgen] at hlk2 hmem2 hwr hledr
                  simp [processEvent, processTransactionCompleted, hcore, hlk2,
                    updateUserTransaction, hrecv, purchaseCores, hledr]
                  refine ⟨?_, by simp, by simp [hledr]⟩
                  exact setTx_obs_noop r hwr tx.id _ _ hmem2 (by simp)
                    (by simp [obsTx])
          | none =>
              have hstore : (processEvent n (.completed d) s).1.store
                  = (⟨s.nextId, d.userId, none, none, .Success, d.cores, 0,
                      some d.id, none, n⟩ : UserTransaction) :: s.store := by
                simp [processEvent, processTransactionCompleted, hcore, hlk,
                  updateUserTransaction, purchaseCores, hup]
              have hledr : (processEvent n (.completed d) s).1.ledgerUp = true := by
                simp [processEvent, processTransactionCompleted, hcore, hlk,
                  updateUserTransaction, purchaseCores, hup]
              have hlk2 : getTransactionForProviderId
                  (processEvent n (.completed d) s).1.store d.id
                  = some ⟨s.nextId, d.userId, none, none, .Success, d.cores, 0,
                      some d.id, none, n⟩ := by
                rw [hstore]
                simp [getTransactionForProviderId]
              have hmem2 : (⟨s.nextId, d.userId, none, none, .Success, d.cores, 0,
                  some d.id, none, n⟩ : UserTransaction)
                  ∈ (processEvent n (.completed d) s).1.store := by
                rw [hstore]
                exact List.mem_cons_self _ _
              generalize hgen : (processEvent n (PaddleEvent.completed d) s).1 = r
              rw [hgen] at hlk2 hmem2 hwr hledr
              simp [processEvent, processTransactionCompleted, hcore, hlk2,
                updateUserTransaction, purchaseCores, hledr]
              refine ⟨?_, by simp, by simp [hledr]⟩
              exact setTx_obs_noop r hwr s.nextId _ _ hmem2 (by simp)
                (by simp [obsTx])
        · cases hlk : getTransactionForProviderId s.store d.id with
          | some tx =>
              by_cases h1 : tx.receiverId ≠ d.userId
              · simp [processEvent, processTransactionCompleted, hcore, hlk,
                  updateUserTransaction, h1]
                exact obsEq_refl _
              · by_cases h2 : tx.status = .Success ∧ tx.value ≠ d.cores
                · simp [processEvent, processTransactionCompleted, hcore, hlk,
                    updateUserTransaction, h1, h2]
                  exact obsEq_refl _
                · simp [processEvent, processTransactionCompleted, hcore, hlk,
                    updateUserTransaction, h1, h2, purchaseCores, hup]
                  exact obsEq_refl _
          | none =>
              simp [processEvent, processTransactionCompleted, hcore, hlk,
                updateUserTransaction, purchaseCores, hup]
              exact obsEq_refl _
      · simp [processEvent, processTransactionCompleted, hcore]
        exact obsEq_refl _


theorem eventsConsistent_tail {e : PaddleEvent} {es : List PaddleEvent}
    (h : EventsConsistent (e :: es)) : EventsConsistent es :=
  fun a ha b hb => h a (List.mem_cons_of_mem _ ha) b (List.mem_cons_of_mem _ hb)

theorem allRecOk_step (n : Nat) (e : PaddleEvent) (es : List PaddleEvent)
    (s : PaddleState) (hw : StoreWf s)
    (hall : AllRecOk (e :: es) s.store)
    (hcons : EventsConsistent (e :: es)) :
    AllRecOk (e :: es) (processEvent n e s).1.store := by
  intro e2 he2
  exact recOk_processEvent n e s e2.data hw (hall e2 he2)
    (fun hid => hcons e (List.mem_cons_self _ _) e2 he2 hid)

/-- Replaying a sequence once and replaying it with every delivery doubled,
from observably equal well-formed states, ends in observably equal states,
provided all deliveries of one provider transaction carry the same cores
amount. -/
theorem replayFrom_dup_obs : ∀ (es : List PaddleEvent) (n1 n2 : Nat)
    (s1 s2 : PaddleState), ObsEq s1 s2 → StoreWf s1 → StoreWf s2 →
    AllRecOk es s1.store → AllRecOk es s2.store → EventsConsistent es →
    ObsEq (replayFrom n1 es s1) (replayFrom n2 (dupEvents es) s2) := by
  intro es
  induction es with
  | nil =>
      intro n1 n2 s1 s2 hobs _ _ _ _ _
      simpa [replayFrom, dupEvents] using hobs
  | cons e rest ih =>
      intro n1 n2 s1 s2 hobs hw1 hw2 ha1 ha2 hcons
      have hrec1 : RecOk e.data s1.store := ha1 e (List.mem_cons_self _ _)
      have hrec2 : RecOk e.data s2.store := ha2 e (List.mem_cons_self _ _)
      have hstep := processEvent_obs_congr n1 n2 e s1 s2 hobs hw1 hw2 hrec1 hrec2
      have hidem := processEvent_idem n2 (n2 + 1) e s2 hw2 hrec2
      have hall2 := allRecOk_step n2 e rest s2 hw2 ha2 hcons
      show ObsEq (replayFrom (n1 + 1) rest (processEvent n1 e s1).1)
        (replayFrom (n2 + 2) (dupEvents rest)
          (processEvent (n2 + 1) e (processEvent n2 e s2).1).1)
      refine ih (n1 + 1) (n2 + 2) _ _
        (obsEq_trans hstep (obsEq_symm hidem))
        (storeWf_processEvent n1 e s1 hw1)
        (storeWf_processEvent (n2 + 1) e _ (storeWf_processEvent n2 e s2 hw2))
        ?_ ?_ (eventsConsistent_tail hcons)
      · intro e2 he2
        exact recOk_processEvent n1 e s1 e2.data hw1
          (ha1 e2 (List.mem_cons_of_mem _ he2))
          (fun hid => hcons e (List.mem_cons_self _ _) e2
            (List.mem_cons_of_mem _ he2) hid)
      · intro e2 he2
        exact recOk_processEvent (n2 + 1) e _ e2.data
          (storeWf_processEvent n2 e s2 hw2)
          (hall2 e2 (List.mem_cons_of_mem _ he2))
          (fun hid => hcons e (List.mem_cons_self _ _) e2
            (List.mem_cons_of_mem _ he2) hid)


end Paddle

open Paddle Njord StoreKit

/-- Claim C2: a Completed event for a transaction that is already Success
with a different stored value raises the fatal consistency error and leaves
the state, and hence the stored record, entirely unchanged. -/
theorem claim2_value_mismatch_fatal (now : Nat) (d : PaddleTransactionData)
    (s : PaddleState) (tx : UserTransaction) (hcore : d.isCore = true)
    (hlk : getTransactionForProviderId s.store d.id = some tx)
    (hrecv : tx.receiverId = d.userId) (hst : tx.status = .Success)
    (hne : tx.value ≠ d.cores) :
    processTransactionCompleted now d s
      = (s, .errored "Transaction value changed after success") := by
  unfold processTransactionCompleted
  rw [hlk]
  simp [hcore, updateUserTransaction, hrecv, hst, hne]

/-- Claim C2 witness: a concrete duplicated completion with value 700
against a record settled at 500 aborts fatally with the record intact. -/
theorem claim2_value_mismatch_fatal_witness :
    processTransactionCompleted 2
        ⟨"T1", "u1", 700, 0, true⟩
        ⟨[⟨0, "u1", none, none, .Success, 500, 0, some "T1", none, 1⟩], 1, true, []⟩
      = (⟨[⟨0, "u1", none, none, .Success, 500, 0, some "T1", none, 1⟩], 1, true, []⟩,
         .errored "Transaction value changed after success") :=
  claim2_value_mismatch_fatal 2 ⟨"T1", "u1", 700, 0, true⟩
    ⟨[⟨0, "u1", none, none, .Success, 500, 0, some "T1", none, 1⟩], 1, true, []⟩
    ⟨0, "u1", none, none, .Success, 500, 0, some "T1", none, 1⟩
    (by decide) (by decide) (by decide) (by decide) (by decide)

/-- Claim C5: a Created event for a provider id that already has a
transaction throws a hard error with the state unchanged; otherwise it
inserts a fresh record with status Created. -/
theorem claim5_created_duplicate_guard (now : Nat) (d : PaddleTransactionData)
    (s : PaddleState) (hcore : d.isCore = true) :
    (∀ tx, getTransactionForProviderId s.store d.id = some tx →
        processTransactionCreated now d s = (s, .errored "Transaction already exists"))
    ∧ (getTransactionForProviderId s.store d.id = none →
        processTransactionCreated now d s =
          ({ s with
              store := ⟨s.nextId, d.userId, none, none, .Created, d.cores, 0,
                        some d.id, none, now⟩ :: s.store
              nextId := s.nextId + 1 },
           .applied)) := by
  constructor
  · intro tx hlk
    unfold processTransactionCreated
    rw [hlk]
    simp [hcore]
  · intro hlk
    unfold processTransactionCreated
    rw [hlk]
    simp [hcore, updateUserTransaction]

/-- Claim C5 witness: a duplicate creation for T1 errors with the store
unchanged, and a creation for a fresh provider id T2 inserts a Created
record. -/
theorem claim5_created_duplicate_guard_witness :
    (processTransactionCreated 2 ⟨"T1", "u1", 5, 0, true⟩
        ⟨[⟨0, "u1", none, none, .Created, 5, 0, some "T1", none, 1⟩], 1, true, []⟩
      = (⟨[⟨0, "u1", none, none, .Created, 5, 0, some "T1", none, 1⟩], 1, true, []⟩,
         .errored "Transaction already exists"))
    ∧ (processTransactionCreated 1 ⟨"T2", "u1", 5, 0, true⟩ (initState true)
      = (⟨[⟨0, "u1", none, none, .Created, 5, 0, some "T2", none, 1⟩], 1, true, []⟩,
         .applied)) :=
  ⟨(claim5_created_duplicate_guard 2 ⟨"T1", "u1", 5, 0, true⟩
      ⟨[⟨0, "u1", none, none, .Created, 5, 0, some "T1", none, 1⟩], 1, true, []⟩
      (by decide)).1
      ⟨0, "u1", none, none, .Created, 5, 0, some "T1", none, 1⟩ (by decide),
   (claim5_created_duplicate_guard 1 ⟨"T2", "u1", 5, 0, true⟩ (initState true)
      (by decide)).2 (by decide)⟩

/-- Claim C9: while the circuit breaker guarding the ledger is open,
getBalance never fails: it serves the cached balance when one exists and
degrades to a zero balance on a cache miss; transferCores instead
propagates the open-circuit failure to its caller. -/
theorem claim9_circuit_open_behavior (isProd : Bool) (ctx : NjordCtx)
    (tr : TransferTransaction) (st : NjordState) (uid : String)
    (hauth : ctx.userId = some uid) (hopen : st.circuitOpen = true) :
    (st.cache = none → getBalance ctx st = .ok (⟨0⟩, st))
    ∧ (∀ c, st.cache = some c → getBalance ctx st = .ok (c, st))
    ∧ (ctx.isTeamMember = true →
        transferCores isProd ctx tr st = .error .brokenCircuit) := by
  refine ⟨?_, ?_, ?_⟩
  · intro hcache
    unfold getBalance getFreshBalance authProtected garmrExecute
    simp [hauth, hcache, hopen]
  · intro c hcache
    unfold getBalance authProtected
    simp [hauth, hcache]
  · intro hteam
    unfold transferCores authProtected garmrExecute
    simp [hauth, hteam, hopen]

/-- Claim C9 witness: with the breaker open, an empty cache and a cached
state both succeed for getBalance while transferCores fails with
BrokenCircuitError. -/
theorem claim9_circuit_open_behavior_witness :
    (getBalance ⟨some "u1", true⟩ ⟨true, none, true, 400⟩ = .ok (⟨0⟩, ⟨true, none, true, 400⟩))
    ∧ (transferCores true ⟨some "u1", true⟩ ⟨some "t1", some "u1", "u2", 50⟩
          ⟨true, none, true, 400⟩ = .error .brokenCircuit)
    ∧ (getBalance ⟨some "u1", true⟩ ⟨true, some ⟨700⟩, true, 400⟩
        = .ok (⟨700⟩, ⟨true, some ⟨700⟩, true, 400⟩)) :=
  ⟨(claim9_circuit_open_behavior true ⟨some "u1", true⟩ ⟨some "t1", some "u1", "u2", 50⟩
      ⟨true, none, true, 400⟩ "u1" (by decide) (by decide)).1 (by decide),
   (claim9_circuit_open_behavior true ⟨some "u1", true⟩ ⟨some "t1", some "u1", "u2", 50⟩
      ⟨true, none, true, 400⟩ "u1" (by decide) (by decide)).2.2 (by decide),
   (claim9_circuit_open_behavior true ⟨some "u1", true⟩ ⟨some "t1", some "u1", "u2", 50⟩
      ⟨true, some ⟨700⟩, true, 400⟩ "u1" (by decide) (by decide)).2.1 ⟨700⟩ (by decide)⟩

/-- Claim C6 counterexample: with no local record and provider sub-status
draft, the inferred status Created has ordinal 0 and is falsy in the host
language, so the if-not-nextStatus test skips the event: the handler
returns the state unchanged and no record is created, against the claim
reading that a draft sub-status infers (and applies) status Created when
no record exists.  For the same reason a non-stale Updated event on an
existing record in status Created is skipped without any write. -/
theorem claim6_updated_draft_counterexample :
    (processTransactionUpdated 1 ⟨"T2", "u1", 7, 0, true⟩ "draft" (initState true)
      = (initState true, .dropped))
    ∧ (getTransactionForProviderId
        (processTransactionUpdated 1 ⟨"T2", "u1", 7, 0, true⟩ "draft"
          (initState true)).1.store "T2" = none)
    ∧ (processTransactionUpdated 2 ⟨"T1", "u1", 7, 3, true⟩ "paid"
        ⟨[⟨0, "u1", none, none, .Created, 5, 0, some "T1", none, 1⟩], 1, true, []⟩
      = (⟨[⟨0, "u1", none, none, .Created, 5, 0, some "T1", none, 1⟩], 1, true, []⟩,
         .dropped)) := by
  decide

/-- Claim C6 (amended): a stale Updated event (local record strictly newer
than the provider timestamp) is dropped with the state unchanged; with an
existing non-stale record the stored status is preserved verbatim — a
record in status Created (the falsy ordinal 0) makes nextStatus falsy and
the event is skipped with the state unchanged, while for any other status
the status column is never written; with no local record only the ready
sub-status creates a record (a fresh Processing one): draft infers
Created, which is falsy and skipped, and any other sub-status is skipped
as well. -/
theorem claim6_updated_stale_and_status_preservation (now : Nat)
    (d : PaddleTransactionData) (evStatus : String) (s : PaddleState)
    (hcore : d.isCore = true) :
    (∀ tx, getTransactionForProviderId s.store d.id = some tx →
        tx.updatedAt > d.updatedAt →
        processTransactionUpdated now d evStatus s = (s, .dropped))
    ∧ (∀ tx, getTransactionForProviderId s.store d.id = some tx →
        ¬ tx.updatedAt > d.updatedAt →
        (tx.status = .Created →
            processTransactionUpdated now d evStatus s = (s, .dropped))
        ∧ (getTransactionForProviderId
              (processTransactionUpdated now d evStatus s).1.store d.id).map
              UserTransaction.status = some tx.status)
    ∧ (getTransactionForProviderId s.store d.id = none →
        (evStatus = "ready" →
          processTransactionUpdated now d evStatus s =
            ({ s with
                store := ⟨s.nextId, d.userId, none, none, .Processing, d.cores, 0,
                          some d.id, none, now⟩ :: s.store
                nextId := s.nextId + 1 },
             .applied))
        ∧ (evStatus ≠ "ready" →
          processTransactionUpdated now d evStatus s = (s, .dropped))) := by
  refine ⟨?_, ?_, ?_⟩
  · intro tx hlk hstale
    simp [processTransactionUpdated, hcore, hlk, staleCheck, hstale]
  · intro tx hlk hstale
    by_cases hstC : tx.status = .Created
    · have heq : processTransactionUpdated now d evStatus s = (s, .dropped) := by
        simp [processTransactionUpdated, hcore, hlk, staleCheck, hstale,
          getUpdatedStatus, statusFalsy, hstC]
      refine ⟨fun _ => heq, ?_⟩
      rw [heq]
      simp [hlk]
    · refine ⟨fun h => absurd h hstC, ?_⟩
      by_cases h1 : tx.receiverId ≠ d.userId
      · have hstore1 : (processTransactionUpdated now d evStatus s).1.store
            = s.store := by
          simp [processTransactionUpdated, hcore, hlk, staleCheck, hstale,
            getUpdatedStatus, statusFalsy, hstC, updateUserTransaction, h1]
        rw [hstore1]
        simp [hlk]
      · by_cases h2 : tx.status = .Success ∧ tx.value ≠ d.cores
        · have hstore1 : (processTransactionUpdated now d evStatus s).1.store
              = s.store := by
            simp [processTransactionUpdated, hcore, hlk, staleCheck, hstale,
              getUpdatedStatus, statusFalsy, hstC, updateUserTransaction, h1, h2]
          rw [hstore1]
          simp [hlk]
        · have hstore1 : (processTransactionUpdated now d evStatus s).1.store
              = setTxById s.store tx.id (fun t =>
                  { t with
                      value := d.cores
                      status := (none : Option UserTransactionStatus).getD t.status
                      updatedAt := now }) := by
            simp [processTransactionUpdated, hcore, hlk, staleCheck, hstale,
              getUpdatedStatus, statusFalsy, hstC, updateUserTransaction, h1, h2]
          rw [hstore1, getTransactionForProviderId_setTxById] <;>
            try exact fun t => rfl
          rw [hlk]
          simp
  · intro hlk
    refine ⟨?_, ?_⟩
    · intro hready
      have hd : evStatus ≠ "draft" := by rw [hready]; decide
      simp [processTransactionUpdated, hcore, hlk, staleCheck, hd, hready,
        getUpdatedStatus, statusFalsy, updateUserTransaction]
    · intro hrdy
      by_cases hd : evStatus = "draft"
      · simp [processTransactionUpdated, hcore, hlk, staleCheck, hd,
          getUpdatedStatus, statusFalsy]
      · simp [processTransactionUpdated, hcore, hlk, staleCheck, hd, hrdy,
          getUpdatedStatus, statusFalsy]

/-- Claim C6 witness: a stale update is dropped; a non-stale update on a
Created record is skipped with the state unchanged; a non-stale update on
a Processing record preserves the stored status; with no record a ready
sub-status creates a Processing record and a draft sub-status is
skipped. -/
theorem claim6_updated_stale_and_status_preservation_witness :
    (processTransactionUpdated 2 ⟨"T1", "u1", 7, 3, true⟩ "paid"
        ⟨[⟨0, "u1", none, none, .Processing, 5, 0, some "T1", none, 4⟩], 1, true, []⟩
      = (⟨[⟨0, "u1", none, none, .Processing, 5, 0, some "T1", none, 4⟩], 1, true, []⟩,
         .dropped))
    ∧ (processTransactionUpdated 5 ⟨"T1", "u1", 7, 6, true⟩ "paid"
        ⟨[⟨0, "u1", none, none, .Created, 5, 0, some "T1", none, 4⟩], 1, true, []⟩
      = (⟨[⟨0, "u1", none, none, .Created, 5, 0, some "T1", none, 4⟩], 1, true, []⟩,
         .dropped))
    ∧ ((getTransactionForProviderId
          (processTransactionUpdated 5 ⟨"T1", "u1", 7, 6, true⟩ "paid"
            ⟨[⟨0, "u1", none, none, .Processing, 5, 0, some "T1", none, 4⟩], 1, true,
              []⟩).1.store "T1").map UserTransaction.status = some .Processing)
    ∧ (processTransactionUpdated 1 ⟨"T2", "u1", 7, 0, true⟩ "ready" (initState true)
      = (⟨[⟨0, "u1", none, none, .Processing, 7, 0, some "T2", none, 1⟩], 1, true, []⟩,
         .applied))
    ∧ (processTransactionUpdated 1 ⟨"T2", "u1", 7, 0, true⟩ "draft" (initState true)
      = (initState true, .dropped)) :=
  ⟨(claim6_updated_stale_and_status_preservation 2 ⟨"T1", "u1", 7, 3, true⟩ "paid"
      ⟨[⟨0, "u1", none, none, .Processing, 5, 0, some "T1", none, 4⟩], 1, true, []⟩
      (by decide)).1 ⟨0, "u1", none, none, .Processing, 5, 0, some "T1", none, 4⟩
      (by decide) (by decide),
   ((claim6_updated_stale_and_status_preservation 5 ⟨"T1", "u1", 7, 6, true⟩ "paid"
      ⟨[⟨0, "u1", none, none, .Created, 5, 0, some "T1", none, 4⟩], 1, true, []⟩
      (by decide)).2.1 ⟨0, "u1", none, none, .Created, 5, 0, some "T1", none, 4⟩
      (by decide) (by decide)).1 (by decide),
   ((claim6_updated_stale_and_status_preservation 5 ⟨"T1", "u1", 7, 6, true⟩ "paid"
      ⟨[⟨0, "u1", none, none, .Processing, 5, 0, some "T1", none, 4⟩], 1, true, []⟩
      (by decide)).2.1 ⟨0, "u1", none, none, .Processing, 5, 0, some "T1", none, 4⟩
      (by decide) (by decide)).2,
   ((claim6_updated_stale_and_status_preservation 1 ⟨"T2", "u1", 7, 0, true⟩ "ready"
      (initState true) (by decide)).2.2 (by decide)).1 (by decide),
   ((claim6_updated_stale_and_status_preservation 1 ⟨"T2", "u1", 7, 0, true⟩ "draft"
      (initState true) (by decide)).2.2 (by decide)).2 (by decide)⟩

/-- Claim C7: a Ready event creates a fresh Processing record when none
exists, moves an existing Created record to Processing, and is rejected
with the store untouched for any other current status, in particular
Success. -/
theorem claim7_ready_transitions (now : Nat) (d : PaddleTransactionData)
    (s : PaddleState) (hcore : d.isCore = true) :
    (getTransactionForProviderId s.store d.id = none →
        processTransactionReady now d s =
          ({ s with
              store := ⟨s.nextId, d.userId, none, none, .Processing, d.cores, 0,
                        some d.id, none, now⟩ :: s.store
              nextId := s.nextId + 1 },
           .applied))
    ∧ (∀ tx, getTransactionForProviderId s.store d.id = some tx →
        tx.status = .Created → tx.receiverId = d.userId →
        (processTransactionReady now d s).2 = .applied
        ∧ (getTransactionForProviderId
            (processTransactionReady now d s).1.store d.id).map
            UserTransaction.status = some .Processing)
    ∧ (∀ tx, getTransactionForProviderId s.store d.id = some tx →
        tx.status ≠ .Created →
        processTransactionReady now d s = (s, .dropped)) := by
  refine ⟨?_, ?_, ?_⟩
  · intro hlk
    unfold processTransactionReady
    rw [hlk]
    simp [hcore, updateUserTransaction]
  · intro tx hlk hst hrecv
    unfold processTransactionReady
    rw [hlk]
    have hvalid : checkTransactionStatusValid tx [.Created] = true := by
      simp [checkTransactionStatusValid, hst]
    simp only [hcore, if_true, hvalid]
    unfold updateUserTransaction
    have h1 : ¬ tx.receiverId ≠ d.userId := by simp [hrecv]
    have h2 : ¬ (tx.status = .Success ∧ tx.value ≠ d.cores) := by
      simp [hst]
    simp only [h1, h2, if_false]
    constructor
    · trivial
    · rw [getTransactionForProviderId_setTxById] <;> try exact fun t => rfl
      rw [hlk]
      simp
  · intro tx hlk hst
    unfold processTransactionReady
    rw [hlk]
    have hvalid : checkTransactionStatusValid tx [.Created] = false := by
      simp [checkTransactionStatusValid, hst]
    simp [hcore, hvalid]

/-- Claim C7 witness: a Ready event creates a fresh Processing record,
advances a Created record, and is rejected on a record already Success. -/
theorem claim7_ready_transitions_witness :
    (processTransactionReady 1 ⟨"T1", "u1", 5, 0, true⟩ (initState true)
      = (⟨[⟨0, "u1", none, none, .Processing, 5, 0, some "T1", none, 1⟩], 1, true, []⟩,
         .applied))
    ∧ ((processTransactionReady 2 ⟨"T1", "u1", 5, 0, true⟩
          ⟨[⟨0, "u1", none, none, .Created, 5, 0, some "T1", none, 1⟩], 1, true, []⟩).2
        = .applied)
    ∧ (processTransactionReady 2 ⟨"T1", "u1", 5, 0, true⟩
          ⟨[⟨0, "u1", none, none, .Success, 5, 0, some "T1", none, 1⟩], 1, true, []⟩
      = (⟨[⟨0, "u1", none, none, .Success, 5, 0, some "T1", none, 1⟩], 1, true, []⟩,
         .dropped)) :=
  ⟨(claim7_ready_transitions 1 ⟨"T1", "u1", 5, 0, true⟩ (initState true) (by decide)).1
      (by decide),
   ((claim7_ready_transitions 2 ⟨"T1", "u1", 5, 0, true⟩
      ⟨[⟨0, "u1", none, none, .Created, 5, 0, some "T1", none, 1⟩], 1, true, []⟩
      (by decide)).2.1 ⟨0, "u1", none, none, .Created, 5, 0, some "T1", none, 1⟩
      (by decide) (by decide) (by decide)).1,
   (claim7_ready_transitions 2 ⟨"T1", "u1", 5, 0, true⟩
      ⟨[⟨0, "u1", none, none, .Success, 5, 0, some "T1", none, 1⟩], 1, true, []⟩
      (by decide)).2.2 ⟨0, "u1", none, none, .Success, 5, 0, some "T1", none, 1⟩
      (by decide) (by decide)⟩

/-- Claim C8: a PaymentFailed event is dropped with the store unchanged
unless the current status is Created or Processing; on a valid transition
the status becomes ErrorRecoverable for the declined error code and Error
for any other code. -/
theorem claim8_payment_failed_transitions (now : Nat) (d : PaddleTransactionData)
    (errorCode : Option String) (s : PaddleState) (tx : UserTransaction)
    (hcore : d.isCore = true)
    (hlk : getTransactionForProviderId s.store d.id = some tx) :
    (tx.status ≠ .Created ∧ tx.status ≠ .Processing →
        processTransactionPaymentFailed now d errorCode s = (s, .dropped))
    ∧ (tx.status = .Created ∨ tx.status = .Processing →
        (processTransactionPaymentFailed now d errorCode s).2 = .applied
        ∧ (getTransactionForProviderId
            (processTransactionPaymentFailed now d errorCode s).1.store d.id).map
            UserTransaction.status
          = some (if errorCode = some "declined" then .ErrorRecoverable else .Error)) := by
  constructor
  · intro ⟨h1, h2⟩
    unfold processTransactionPaymentFailed
    rw [hlk]
    have hvalid : checkTransactionStatusValid tx [.Created, .Processing] = false := by
      simp [checkTransactionStatusValid, h1, h2]
    simp [hcore, hvalid]
  · intro hst
    unfold processTransactionPaymentFailed
    rw [hlk]
    have hvalid : checkTransactionStatusValid tx [.Created, .Processing] = true := by
      rcases hst with h | h <;> simp [checkTransactionStatusValid, h]
    simp only [hcore, if_true, hvalid]
    constructor
    · trivial
    · rw [getTransactionForProviderId_setTxById] <;> try exact fun t => rfl
      rw [hlk]
      simp

/-- Claim C8 witness: a declined failure on a Processing record moves it to
ErrorRecoverable, another code moves it to Error, and a failure on a
Success record is dropped. -/
theorem claim8_payment_failed_transitions_witness :
    ((getTransactionForProviderId
        (processTransactionPaymentFailed 2 ⟨"T1", "u1", 5, 0, true⟩ (some "declined")
          ⟨[⟨0, "u1", none, none, .Processing, 5, 0, some "T1", none, 1⟩], 1, true,
            []⟩).1.store "T1").map UserTransaction.status = some .ErrorRecoverable)
    ∧ ((getTransactionForProviderId
        (processTransactionPaymentFailed 2 ⟨"T1", "u1", 5, 0, true⟩ (some "failed")
          ⟨[⟨0, "u1", none, none, .Processing, 5, 0, some "T1", none, 1⟩], 1, true,
            []⟩).1.store "T1").map UserTransaction.status = some .Error)
    ∧ (processTransactionPaymentFailed 2 ⟨"T1", "u1", 5, 0, true⟩ (some "declined")
          ⟨[⟨0, "u1", none, none, .Success, 5, 0, some "T1", none, 1⟩], 1, true, []⟩
        = (⟨[⟨0, "u1", none, none, .Success, 5, 0, some "T1", none, 1⟩], 1, true, []⟩,
           .dropped)) := by
  refine ⟨?_, ?_, ?_⟩
  · have h := ((claim8_payment_failed_transitions 2 ⟨"T1", "u1", 5, 0, true⟩
      (some "declined")
      ⟨[⟨0, "u1", none, none, .Processing, 5, 0, some "T1", none, 1⟩], 1, true, []⟩
      ⟨0, "u1", none, none, .Processing, 5, 0, some "T1", none, 1⟩
      (by decide) (by decide)).2 (Or.inr (by decide))).2
    simpa using h
  · have h := ((claim8_payment_failed_transitions 2 ⟨"T1", "u1", 5, 0, true⟩
      (some "failed")
      ⟨[⟨0, "u1", none, none, .Processing, 5, 0, some "T1", none, 1⟩], 1, true, []⟩
      ⟨0, "u1", none, none, .Processing, 5, 0, some "T1", none, 1⟩
      (by decide) (by decide)).2 (Or.inr (by decide))).2
    simpa using h
  · exact (claim8_payment_failed_transitions 2 ⟨"T1", "u1", 5, 0, true⟩
      (some "declined")
      ⟨[⟨0, "u1", none, none, .Success, 5, 0, some "T1", none, 1⟩], 1, true, []⟩
      ⟨0, "u1", none, none, .Success, 5, 0, some "T1", none, 1⟩
      (by decide) (by decide)).1 (by decide)

/-- Claim C3: the Completed handler forces the record to Success from any
prior status when the ledger transfer succeeds, and the status write and
the transfer share one database transaction: whenever the ledger is
unreachable the whole state, record included, is left exactly as it was. -/
theorem claim3_completed_forces_success_and_rolls_back (now : Nat)
    (d : PaddleTransactionData) (s : PaddleState) :
    (s.ledgerUp = false → (processTransactionCompleted now d s).1 = s)
    ∧ (d.isCore = true → s.ledgerUp = true →
        (∀ tx, getTransactionForProviderId s.store d.id = some tx →
          tx.receiverId = d.userId ∧ (tx.status = .Success → tx.value = d.cores)) →
        (processTransactionCompleted now d s).2 = .applied
        ∧ (getTransactionForProviderId
            (processTransactionCompleted now d s).1.store d.id).map
            UserTransaction.status = some .Success) := by
  constructor
  · intro hdown
    unfold processTransactionCompleted
    by_cases hcore : d.isCore
    · simp only [hcore, if_true]
      cases hlk : getTransactionForProviderId s.store d.id with
      | none => simp [updateUserTransaction, purchaseCores, hdown]
      | some tx =>
          unfold updateUserTransaction
          by_cases h1 : tx.receiverId ≠ d.userId
          · simp [h1]
          · by_cases h2 : tx.status = .Success ∧ tx.value ≠ d.cores
            · simp [h1, h2]
            · simp [h1, h2, purchaseCores, hdown]
    · simp [hcore]
  · intro hcore hup hcompat
    unfold processTransactionCompleted
    simp only [hcore, if_true]
    cases hlk : getTransactionForProviderId s.store d.id with
    | none =>
        simp [updateUserTransaction, purchaseCores, hup, getTransactionForProviderId]
    | some tx =>
        obtain ⟨hrecv, hval⟩ := hcompat tx hlk
        unfold updateUserTransaction
        have h1 : ¬ tx.receiverId ≠ d.userId := by simp [hrecv]
        have h2 : ¬ (tx.status = .Success ∧ tx.value ≠ d.cores) := by
          rintro ⟨hsucc, hne⟩
          exact hne (hval hsucc)
        simp only [h1, h2, if_false]
        simp only [purchaseCores, hup, if_true]
        constructor
        · trivial
        · rw [getTransactionForProviderId_setTxById] <;> try exact fun t => rfl
          rw [hlk]
          simp

/-- Claim C3 witness: a Completed event on a Processing record with the
ledger up settles it to Success, and the same event with the circuit open
leaves the state untouched. -/
theorem claim3_completed_forces_success_and_rolls_back_witness :
    ((processTransactionCompleted 2 ⟨"T1", "u1", 5, 0, true⟩
        ⟨[⟨0, "u1", none, none, .Processing, 5, 0, some "T1", none, 1⟩], 1, false,
          []⟩).1
      = ⟨[⟨0, "u1", none, none, .Processing, 5, 0, some "T1", none, 1⟩], 1, false, []⟩)
    ∧ ((getTransactionForProviderId
          (processTransactionCompleted 2 ⟨"T1", "u1", 5, 0, true⟩
            ⟨[⟨0, "u1", none, none, .Processing, 5, 0, some "T1", none, 1⟩], 1, true,
              []⟩).1.store "T1").map UserTransaction.status = some .Success) :=
  ⟨(claim3_completed_forces_success_and_rolls_back 2 ⟨"T1", "u1", 5, 0, true⟩
      ⟨[⟨0, "u1", none, none, .Processing, 5, 0, some "T1", none, 1⟩], 1, false, []⟩).1
      (by decide),
   ((claim3_completed_forces_success_and_rolls_back 2 ⟨"T1", "u1", 5, 0, true⟩
      ⟨[⟨0, "u1", none, none, .Processing, 5, 0, some "T1", none, 1⟩], 1, true, []⟩).2
      (by decide) (by decide)
      (fun tx hlk => by
        have htx : tx = ⟨0, "u1", none, none, .Processing, 5, 0, some "T1", none, 1⟩ := by
          simpa [getTransactionForProviderId] using hlk.symm
        subst htx
        exact ⟨rfl, fun hsucc => absurd hsucc (by decide)⟩)).2⟩

/-- Claim C1 counterexample: delivering the same Completed event twice,
the record being Success with unchanged value 5 when the second delivery
arrives, still invokes the ledger transfer a second time: the transfer log
holds two invocations, so the claimed at-most-one transfer call, with the
duplicate detected and skipped before re-invocation, is false. -/
theorem claim1_duplicate_completed_counterexample :
    ((getTransactionForProviderId
        (processEvent 1 (.completed ⟨"T1", "u1", 5, 0, true⟩) (initState true)).1.store
        "T1").map UserTransaction.status = some .Success)
    ∧ ((getTransactionForProviderId
        (processEvent 1 (.completed ⟨"T1", "u1", 5, 0, true⟩) (initState true)).1.store
        "T1").map UserTransaction.value = some 5)
    ∧ ¬ ((processEvent 2 (.completed ⟨"T1", "u1", 5, 0, true⟩)
          (processEvent 1 (.completed ⟨"T1", "u1", 5, 0, true⟩)
            (initState true)).1).1.transfers.length ≤ 1) := by decide

/-- Claim C1 amended: a duplicate Completed delivery for a record already
Success with unchanged value is not detected and skipped before the
transfer: the handler re-runs the status write (observably a no-op) and
re-invokes the ledger transfer once more; the re-invocation carries the
same idempotency key, the transaction id, so deduplication is delegated to
the ledger rather than enforced by a pre-check in this code path. -/
theorem claim1_duplicate_completed_retransfers (now : Nat)
    (d : PaddleTransactionData) (s : PaddleState) (tx : UserTransaction)
    (hcore : d.isCore = true)
    (hlk : getTransactionForProviderId s.store d.id = some tx)
    (hst : tx.status = .Success) (hval : tx.value = d.cores)
    (hrecv : tx.receiverId = d.userId) (hup : s.ledgerUp = true) :
    (processTransactionCompleted now d s).2 = .applied
    ∧ (processTransactionCompleted now d s).1.transfers
        = s.transfers ++ [⟨tx.id, tx.receiverId, d.cores⟩]
    ∧ (getTransactionForProviderId
        (processTransactionCompleted now d s).1.store d.id).map obsTx
      = some (obsTx tx) := by
  unfold processTransactionCompleted
  rw [hlk]
  unfold updateUserTransaction
  have h1 : ¬ tx.receiverId ≠ d.userId := by simp [hrecv]
  have h2 : ¬ (tx.status = .Success ∧ tx.value ≠ d.cores) := by
    rintro ⟨-, hne⟩
    exact hne hval
  simp only [hcore, if_true, h1, h2, if_false]
  simp only [purchaseCores, hup, if_true]
  refine ⟨trivial, trivial, ?_⟩
  rw [getTransactionForProviderId_setTxById] <;> try exact fun t => rfl
  rw [hlk]
  simp [obsTx, hst, hval]

/-- Claim C1 amended witness: the second Completed delivery on a settled
record applies, appends one more transfer invocation with the same
idempotency key 0, and leaves the record observably unchanged. -/
theorem claim1_duplicate_completed_retransfers_witness :
    ((processTransactionCompleted 2 ⟨"T1", "u1", 5, 0, true⟩
        ⟨[⟨0, "u1", none, none, .Success, 5, 0, some "T1", none, 1⟩], 1, true,
          [⟨0, "u1", 5⟩]⟩).2 = .applied)
    ∧ ((processTransactionCompleted 2 ⟨"T1", "u1", 5, 0, true⟩
        ⟨[⟨0, "u1", none, none, .Success, 5, 0, some "T1", none, 1⟩], 1, true,
          [⟨0, "u1", 5⟩]⟩).1.transfers = [⟨0, "u1", 5⟩] ++ [⟨0, "u1", 5⟩])
    ∧ ((getTransactionForProviderId
          (processTransactionCompleted 2 ⟨"T1", "u1", 5, 0, true⟩
            ⟨[⟨0, "u1", none, none, .Success, 5, 0, some "T1", none, 1⟩], 1, true,
              [⟨0, "u1", 5⟩]⟩).1.store "T1").map obsTx
        = some (obsTx ⟨0, "u1", none, none, .Success, 5, 0, some "T1", none, 1⟩)) :=
  claim1_duplicate_completed_retransfers 2 ⟨"T1", "u1", 5, 0, true⟩
    ⟨[⟨0, "u1", none, none, .Success, 5, 0, some "T1", none, 1⟩], 1, true,
      [⟨0, "u1", 5⟩]⟩
    ⟨0, "u1", none, none, .Success, 5, 0, some "T1", none, 1⟩
    (by decide) (by decide) (by decide) (by decide) (by decide) (by decide)

/-- Claim C10 counterexample: updateStoreKitUserSubscription does change
the stored appAccountToken on the basis of caller-supplied data.  With
status Expired the written flags carry the incoming token (new, replacing
the stored old); and an empty-string token is falsy, survives the delete,
and overwrites the stored token through the merge. -/
theorem claim10_token_overwrite_counterexample :
    (updateStoreKitUserSubscription (some ⟨some "new", none⟩) (some .Expired)
        ⟨some .Active, some "old", some "x"⟩
      = some ⟨some .Expired, some "new", none⟩)
    ∧ (some "new" : Option String) ≠ some "old"
    ∧ (Option.map SubscriptionFlags.appAccountToken
        (updateStoreKitUserSubscription (some ⟨some "", none⟩) (some .Active)
          ⟨some .Active, some "old", some "x"⟩)
      = some (some ""))
    ∧ (some "" : Option String) ≠ some "old" := by decide

/-- Claim C10 amended: without data no update happens; with status Expired
the written flags are exactly the status and the caller-supplied incoming
appAccountToken (so the stored token is replaced by the incoming one); in
every other case a non-empty (truthy) appAccountToken is deleted from the
payload before the merge, leaving the stored token untouched. -/
theorem claim10_subscription_flags_update (status : Option UserSubscriptionStatus)
    (stored : SubscriptionFlags) :
    (updateStoreKitUserSubscription none status stored = none)
    ∧ (∀ d, status = some .Expired →
        updateStoreKitUserSubscription (some d) status stored
          = some ⟨some .Expired, d.appAccountToken, none⟩)
    ∧ (∀ d, status ≠ some .Expired → d.appAccountToken ≠ some "" →
        (updateStoreKitUserSubscription (some d) status stored).map
            SubscriptionFlags.appAccountToken
          = some stored.appAccountToken) := by
  refine ⟨rfl, ?_, ?_⟩
  · intro d hexp
    unfold updateStoreKitUserSubscription
    simp [hexp]
  · intro d hne htok
    unfold updateStoreKitUserSubscription tokenTruthy updateSubscriptionFlags mergeKey
    cases h : d.appAccountToken with
    | none => simp [hne, h]
    | some sv =>
        have hs : sv ≠ "" := by
          intro he
          apply htok
          rw [h, he]
        simp [hne, h, hs]

/-- Claim C10 amended witness: no-data call skips the update, an Expired
call writes exactly status plus incoming token, and a truthy token is
stripped before the merge. -/
theorem claim10_subscription_flags_update_witness :
    (updateStoreKitUserSubscription none (some .Active) ⟨some .Active, some "old", some "x"⟩
      = none)
    ∧ (updateStoreKitUserSubscription (some ⟨some "new", none⟩) (some .Expired)
          ⟨some .Active, some "old", some "x"⟩
        = some ⟨some .Expired, some "new", none⟩)
    ∧ ((updateStoreKitUserSubscription (some ⟨some "new", some "y"⟩) (some .Active)
          ⟨some .Active, some "old", some "x"⟩).map SubscriptionFlags.appAccountToken
        = some (some "old")) :=
  ⟨(claim10_subscription_flags_update (some .Active) ⟨some .Active, some "old", some "x"⟩).1,
   (claim10_subscription_flags_update (some .Expired)
      ⟨some .Active, some "old", some "x"⟩).2.1 ⟨some "new", none⟩ (by decide),
   (claim10_subscription_flags_update (some .Active)
      ⟨some .Active, some "old", some "x"⟩).2.2 ⟨some "new", some "y"⟩
      (by decide) (by decide)⟩

/-- Claim C4 counterexample: a sequence that the state machine accepts in
full (Created, Ready, then two fresh Updated deliveries carrying new cores
amounts to the now-Processing record) ends with value 9 when replayed
once, but with value 7 when every delivery is doubled: the duplicate
deliveries advance the stored updatedAt past the timestamp of the second
Updated, which is then dropped as stale, so the doubled replay does not
reach the same final record. -/
theorem claim4_duplicated_replay_counterexample :
    (acceptedFrom 1
        [PaddleEvent.created ⟨"T1", "u1", 5, 0, true⟩,
         PaddleEvent.ready ⟨"T1", "u1", 5, 1, true⟩,
         PaddleEvent.updated ⟨"T1", "u1", 7, 3, true⟩ "paid",
         PaddleEvent.updated ⟨"T1", "u1", 9, 4, true⟩ "paid"]
        (initState true) = true)
    ∧ ((getTransactionForProviderId
          (replayFrom 1
            [PaddleEvent.created ⟨"T1", "u1", 5, 0, true⟩,
             PaddleEvent.ready ⟨"T1", "u1", 5, 1, true⟩,
             PaddleEvent.updated ⟨"T1", "u1", 7, 3, true⟩ "paid",
             PaddleEvent.updated ⟨"T1", "u1", 9, 4, true⟩ "paid"]
            (initState true)).store "T1").map UserTransaction.value = some 9)
    ∧ ((getTransactionForProviderId
          (replayFrom 1
            (dupEvents
              [PaddleEvent.created ⟨"T1", "u1", 5, 0, true⟩,
               PaddleEvent.ready ⟨"T1", "u1", 5, 1, true⟩,
               PaddleEvent.updated ⟨"T1", "u1", 7, 3, true⟩ "paid",
               PaddleEvent.updated ⟨"T1", "u1", 9, 4, true⟩ "paid"])
            (initState true)).store "T1").map UserTransaction.value = some 7) := by
  decide

/-- Claim C4 amended: for every event sequence in which all deliveries of a
given provider transaction id carry the same cores amount, replaying the
sequence with every event delivered twice yields the same final store as
replaying it once, on every domain field of every record; only the
database-maintained updatedAt bookkeeping timestamp (and the transfer
invocation log) may differ.  Without the same-cores condition the claim
fails, as the counterexample shows. -/
theorem claim4_duplicated_replay_same_value (es : List PaddleEvent) (b : Bool)
    (n1 n2 : Nat) (hcons : EventsConsistent es) :
    obsStore (replayFrom n2 (dupEvents es) (initState b)).store
      = obsStore (replayFrom n1 es (initState b)).store := by
  have hwInit : StoreWf (initState b) :=
    ⟨fun t ht => absurd ht (List.not_mem_nil t),
     fun t ht => absurd ht (List.not_mem_nil t)⟩
  have haInit : AllRecOk es (initState b).store :=
    fun e _ t ht _ => absurd ht (List.not_mem_nil t)
  have h := replayFrom_dup_obs es n1 n2 (initState b) (initState b)
    (obsEq_refl _) hwInit hwInit haInit haInit hcons
  exact h.1.symm

/-- Claim C4 amended witness: a full Created, Ready, Completed flow with a
fixed cores amount reaches the same final record whether or not every
delivery is doubled. -/
theorem claim4_duplicated_replay_same_value_witness :
    obsStore (replayFrom 1
        (dupEvents
          [PaddleEvent.created ⟨"T1", "u1", 5, 0, true⟩,
           PaddleEvent.ready ⟨"T1", "u1", 5, 1, true⟩,
           PaddleEvent.completed ⟨"T1", "u1", 5, 2, true⟩])
        (initState true)).store
      = obsStore (replayFrom 1
          [PaddleEvent.created ⟨"T1", "u1", 5, 0, true⟩,
           PaddleEvent.ready ⟨"T1", "u1", 5, 1, true⟩,
           PaddleEvent.completed ⟨"T1", "u1", 5, 2, true⟩]
          (initState true)).store :=
  claim4_duplicated_replay_same_value
    [PaddleEvent.created ⟨"T1", "u1", 5, 0, true⟩,
     PaddleEvent.ready ⟨"T1", "u1", 5, 1, true⟩,
     PaddleEvent.completed ⟨"T1", "u1", 5, 2, true⟩]
    true 1 1 (by unfold EventsConsistent; decide)
